import Mathlib

/-!
Verification of the bronze/silver/gold churn-data pipeline
(src/utilidades/limpieza.py, src/utilidades/features.py,
src/utilidades/hashing.py, src/configuracion.py,
src/transformacion/bronze_a_silver.py).

A pandas DataFrame is embedded as a list of column names plus a list of
rows; a cell is a tagged value: missing (NaN/NaT/None), text, a rational
number (idealizing float arithmetic), or a calendar date held as a day
count since 1970-01-01.  Each pipeline stage is translated line by line
from its Python source; external pandas primitives (pd.cut, fillna,
median, sort_values, drop_duplicates, to_datetime on ISO text) are given
executable models on the value domain the pipeline actually feeds them.
-/

/-- One cell of a table: missing marker, text, number, or calendar date
(days since the 1970-01-01 epoch). -/
inductive Value where
  | na : Value
  | str : String → Value
  | num : ℚ → Value
  | date : ℤ → Value
  deriving DecidableEq

/-- A tabular snapshot: column names plus rows of cells.  Rows are kept
positionally aligned with the column list. -/
structure Table where
  cols : List String
  rows : List (List Value)
  deriving DecidableEq

/-- Index of a column name in the header (length of the header when the
name is absent). -/
def colIdx (t : Table) (c : String) : ℕ := t.cols.indexOf c

/-- Cell of a row at a column position; reading past the end of a row
yields the missing marker. -/
def getVal (r : List Value) (i : ℕ) : Value := r.getD i Value.na

/-- The cells of one column, top to bottom (pandas df[c]). -/
def colVals (t : Table) (c : String) : List Value :=
  t.rows.map (fun r => getVal r (colIdx t c))

/-- Column assignment df[c] = vs: overwrite the column in place when the
name exists, otherwise append a new column on the right. -/
def setColVals (t : Table) (c : String) (vs : List Value) : Table :=
  if c ∈ t.cols then
    ⟨t.cols, t.rows.zipWith (fun r v => r.set (colIdx t c) v) vs⟩
  else
    ⟨t.cols ++ [c], t.rows.zipWith (fun r v => r ++ [v]) vs⟩

/-- Apply a cell transformation to one column (df[c] = df[c].apply f). -/
def mapCol (t : Table) (c : String) (f : Value → Value) : Table :=
  setColVals t c ((colVals t c).map f)

/-- Remove one column (all positions carrying its first index). -/
def quitarColumna (t : Table) (c : String) : Table :=
  if c ∈ t.cols then
    ⟨t.cols.eraseIdx (colIdx t c), t.rows.map (fun r => r.eraseIdx (colIdx t c))⟩
  else t

/-- df.drop(columns=cs). -/
def quitarColumnas (t : Table) (cs : List String) : Table :=
  cs.foldl quitarColumna t

/-- Number of missing cells in a column (df[c].isnull().sum()). -/
def countNa (vs : List Value) : ℕ := List.count Value.na vs

/-- Every row has exactly one cell per column. -/
def Aligned (t : Table) : Prop := ∀ r ∈ t.rows, r.length = t.cols.length

instance (t : Table) : Decidable (Aligned t) :=
  List.decidableBAll _ t.rows

-- ===========================================================================
-- Calendar dates and the external parsers (pd.to_datetime / pd.to_numeric)
-- ===========================================================================

/-- Days since 1970-01-01 of a proleptic-Gregorian civil date
(standard era-based conversion; used for years ≥ 1, the data domain). -/
def diasDesdeCivil (y m d : ℤ) : ℤ :=
  let yy := if m ≤ 2 then y - 1 else y
  let era := yy / 400
  let yoe := yy - era * 400
  let mp := (m + 9) % 12
  let doy := (153 * mp + 2) / 5 + d - 1
  let doe := yoe * 365 + yoe / 4 - yoe / 100 + doy
  era * 146097 + doe - 719468

def esDigito (c : Char) : Bool := 48 ≤ c.toNat && c.toNat ≤ 57

def digitosANat (cs : List Char) : ℕ :=
  cs.foldl (fun a c => a * 10 + (c.toNat - 48)) 0

/-- Split a character list on a separator (groups between separators). -/
def splitEn (sep : Char) : List Char → List (List Char)
  | [] => [[]]
  | c :: cs =>
    let r := splitEn sep cs
    if c = sep then [] :: r
    else
      match r with
      | [] => [[c]]
      | g :: gs => (c :: g) :: gs

/-- Model of pandas date parsing (pd.to_datetime, errors coerced) on the
canonical YYYY-MM-DD text form; other text shapes fall outside the
modelled domain and parse to missing. -/
def parseFechaISO (s : String) : Option ℤ :=
  match splitEn '-' s.data with
  | [ys, ms, ds] =>
    if ys.length = 4 ∧ ms.length = 2 ∧ ds.length = 2
        ∧ (ys ++ ms ++ ds).all esDigito = true then
      let y := digitosANat ys
      let m := digitosANat ms
      let d := digitosANat ds
      if 1 ≤ m ∧ m ≤ 12 ∧ 1 ≤ d ∧ d ≤ 31 then
        some (diasDesdeCivil y m d)
      else none
    else none
  | _ => none

/-- pd.to_datetime(value, errors='coerce') on one cell: dates pass
through, parseable text becomes a date, everything else becomes NaT. -/
def parseDateV : Value → Value
  | Value.date d => Value.date d
  | Value.str s =>
    match parseFechaISO s with
    | some d => Value.date d
    | none => Value.na
  | _ => Value.na

def parseNatDigits? (cs : List Char) : Option ℕ :=
  if cs ≠ [] ∧ cs.all esDigito = true then some (digitosANat cs) else none

/-- Unsigned part of the decimal-literal parser backing numeric coercion. -/
def parseDecimalPos (l : List Char) : Option ℚ :=
  match splitEn '.' l with
  | [ip] => (parseNatDigits? ip).map (fun n => (n : ℚ))
  | [ip, fp] =>
    match parseNatDigits? ip, parseNatDigits? fp with
    | some i, some f => some ((i : ℚ) + (f : ℚ) / ((10 : ℚ) ^ fp.length))
    | _, _ => none
  | _ => none

/-- Decimal-literal parser backing the numeric coercion model. -/
def parseDecimal (cs : List Char) : Option ℚ :=
  match cs with
  | '-' :: rest => (parseDecimalPos rest).map (fun q => -q)
  | _ => parseDecimalPos cs

/-- pd.to_numeric(value, errors='coerce') on one cell: numbers pass
through, numeric text parses, everything else becomes missing.  (The
coerced pipeline columns hold only text, numbers or missing cells.) -/
def parseNumV : Value → Value
  | Value.num q => Value.num q
  | Value.str s =>
    match parseDecimal s.data with
    | some q => Value.num q
    | none => Value.na
  | _ => Value.na

-- ===========================================================================
-- pd.cut: right-closed fixed-boundary binning
-- ===========================================================================

/-- One bin edge: a finite bound or float('inf'). -/
inductive Edge where
  | fin : ℚ → Edge
  | inf : Edge
  deriving DecidableEq

def leEdge (v : ℚ) : Edge → Bool
  | Edge.fin q => decide (v ≤ q)
  | Edge.inf => true

def gtEdge (v : ℚ) : Edge → Bool
  | Edge.fin q => decide (q < v)
  | Edge.inf => false

/-- pd.cut on one number: find the first interval (lo, hi] that contains
it; values on no interval (in particular any value at or below the
leftmost edge) are left unlabelled (missing). -/
def pdCut (v : ℚ) : List Edge → List String → Value
  | e1 :: e2 :: es, lab :: labs =>
    if gtEdge v e1 && leEdge v e2 then Value.str lab
    else pdCut v (e2 :: es) labs
  | _, _ => Value.na

/-- pd.cut lifted to a cell (non-numeric cells stay unlabelled). -/
def cortarV (bins : List Edge) (labels : List String) : Value → Value
  | Value.num q => pdCut q bins labels
  | _ => Value.na

-- ===========================================================================
-- configuracion.py: the fixed configuration constants
-- ===========================================================================

def SALT_HASHING : String := "proyecto_churn_2025_salt_secreto"

def COLUMNAS_SENSIBLES : List String :=
  ["full_name", "email", "phone", "home_address"]

def ESTRATEGIA_NULOS : List (String × String) :=
  [("phone", "MISSING"), ("monthly_spend", "mediana"),
   ("total_shipments", "mediana"), ("last_purchase_date", "ffill"),
   ("churn_label", "eliminar")]

def UMBRAL_GASTO_MAXIMO : ℚ := 15000

def UMBRAL_ENVIOS_MAXIMO : ℚ := 500

def VENTANA_RECENCIA_DIAS : ℚ := 180

def BINS_GASTO_MENSUAL : List Edge :=
  [Edge.fin 0, Edge.fin 500, Edge.fin 1500, Edge.fin 5000, Edge.inf]

def ETIQUETAS_GASTO : List String := ["Bajo", "Medio", "Alto", "Premium"]

def BINS_FRECUENCIA_ENVIOS : List Edge :=
  [Edge.fin 0, Edge.fin 10, Edge.fin 30, Edge.fin 100, Edge.inf]

def ETIQUETAS_FRECUENCIA : List String :=
  ["Ocasional", "Regular", "Frecuente", "VIP"]

def BINS_RECENCIA : List Edge :=
  [Edge.fin 0, Edge.fin 30, Edge.fin 90, Edge.fin 180, Edge.inf]

def ETIQUETAS_RECENCIA : List String :=
  ["Muy_Reciente", "Reciente", "Inactivo", "Muy_Inactivo"]

def BINS_ANTIGUEDAD : List Edge :=
  [Edge.fin 0, Edge.fin 180, Edge.fin 365, Edge.fin 730, Edge.inf]

def ETIQUETAS_ANTIGUEDAD : List String :=
  ["Nuevo", "Establecido", "Veterano", "Antiguo"]

def BINS_ENGAGEMENT : List Edge :=
  [Edge.fin 0, Edge.fin 25, Edge.fin 50, Edge.fin 75, Edge.fin 100]

def ETIQUETAS_ENGAGEMENT : List String := ["Bajo", "Medio", "Alto", "Muy_Alto"]

def BINS_TICKET : List Edge :=
  [Edge.fin 0, Edge.fin 50, Edge.fin 100, Edge.fin 200, Edge.inf]

def ETIQUETAS_TICKET : List String := ["Bajo", "Medio", "Alto", "Premium"]

def BINS_RIESGO : List Edge :=
  [Edge.fin (-1), Edge.fin 0, Edge.fin 2, Edge.fin 4, Edge.fin 6]

def ETIQUETAS_RIESGO : List String := ["Bajo", "Medio", "Alto", "Critico"]

-- ===========================================================================
-- limpieza.py
-- ===========================================================================

/-- df[~df.duplicated()]: keep the first occurrence of each exact row. -/
def dedupRowsAux : List (List Value) → List (List Value) → List (List Value)
  | _, [] => []
  | seen, r :: rs =>
    if r ∈ seen then dedupRowsAux seen rs
    else r :: dedupRowsAux (r :: seen) rs

def dedupRows (rs : List (List Value)) : List (List Value) := dedupRowsAux [] rs

/-- drop_duplicates(subset=key, keep='first'): keep the first row carrying
each key value (the key read at column position i). -/
def dropDupKeysAux (i : ℕ) : List Value → List (List Value) → List (List Value)
  | _, [] => []
  | seen, r :: rs =>
    if getVal r i ∈ seen then dropDupKeysAux i seen rs
    else r :: dropDupKeysAux i (getVal r i :: seen) rs

def dropDupKeys (i : ℕ) (rs : List (List Value)) : List (List Value) :=
  dropDupKeysAux i [] rs

/-- Lexicographic code-point comparison of character lists (Python's
string order, which pandas uses when sorting a text key column). -/
def lexLEchars : List Char → List Char → Bool
  | [], _ => true
  | _ :: _, [] => false
  | c :: cs, d :: ds =>
    if c.toNat < d.toNat then true
    else if d.toNat < c.toNat then false
    else lexLEchars cs ds

def strLEb (a b : String) : Bool := lexLEchars a.data b.data

/-- Total order on cells used when sorting a key column (the pipeline's
key column holds text; the cross-constructor cases only make the order
total on the whole cell domain). -/
def valLEb : Value → Value → Bool
  | Value.na, _ => true
  | _, Value.na => false
  | Value.str a, Value.str b => strLEb a b
  | Value.str _, _ => true
  | _, Value.str _ => false
  | Value.num a, Value.num b => decide (a ≤ b)
  | Value.num _, _ => true
  | _, Value.num _ => false
  | Value.date a, Value.date b => decide (a ≤ b)

/-- Descending comparison on parsed dates with NaT sorted last
(sort_values ascending=False, na_position='last'). -/
def optDateGEb : Option ℤ → Option ℤ → Bool
  | _, none => true
  | none, some _ => false
  | some a, some b => decide (b ≤ a)

/-- The day count of a date cell, if it is one. -/
def toDia : Value → Option ℤ
  | Value.date d => some d
  | _ => none

/-- Row order of sort_values([key, parsed last_purchase_date],
ascending=[True, False]): key ascending, then parsed date descending with
unparseable dates last.  i is the key position, j the date position. -/
def rowOrdb (i j : ℕ) (r1 r2 : List Value) : Bool :=
  if getVal r1 i = getVal r2 i then
    optDateGEb (toDia (parseDateV (getVal r1 j))) (toDia (parseDateV (getVal r2 j)))
  else valLEb (getVal r1 i) (getVal r2 i)

/-- limpieza.detectar_duplicados: drop exact duplicate rows, then, when
several rows share the key, keep per key the first row of the table
sorted by key ascending and parsed last_purchase_date descending (or the
first-encountered row when no last_purchase_date column exists).  The
temporary parsed-date column the source adds and drops is folded into
the sort comparison, which leaves the rows identical. -/
def detectar_duplicados (t : Table) (columnaId : String := "customer_id") : Table :=
  let rows1 := dedupRows t.rows
  let i := List.indexOf columnaId t.cols
  if (rows1.map (fun r => getVal r i)).Nodup then ⟨t.cols, rows1⟩
  else if "last_purchase_date" ∈ t.cols then
    let j := List.indexOf "last_purchase_date" t.cols
    let ordenadas := List.insertionSort (fun r1 r2 => rowOrdb i j r1 r2 = true) rows1
    ⟨t.cols, dropDupKeys i ordenadas⟩
  else ⟨t.cols, dropDupKeys i rows1⟩

/-- limpieza.normalizar_fechas: parse each listed column with
pd.to_datetime(errors='coerce'); absent columns are skipped. -/
def normalizar_fechas (t : Table) (columnasFecha : List String) : Table :=
  columnasFecha.foldl
    (fun acc c => if c ∈ acc.cols then mapCol acc c parseDateV else acc) t

/-- The numeric cells of a column (pandas numeric ops skip NaN). -/
def numsDe (vs : List Value) : List ℚ :=
  vs.filterMap (fun v =>
    match v with
    | Value.num q => some q
    | _ => none)

/-- df[c].median(): middle of the sorted non-missing numbers, the mean of
the two middle ones on an even count, none on an empty column. -/
def mediana (vs : List Value) : Option ℚ :=
  let l := List.insertionSort (fun a b : ℚ => a ≤ b) (numsDe vs)
  let n := l.length
  if n = 0 then none
  else if n % 2 = 1 then some (l.getD (n / 2) 0)
  else some ((l.getD (n / 2 - 1) 0 + l.getD (n / 2) 0) / 2)

/-- df[c].mean() over the non-missing numbers. -/
def media (vs : List Value) : Option ℚ :=
  let l := numsDe vs
  if l.length = 0 then none else some (l.sum / l.length)

/-- df[c].mode()[0]: the smallest among the most frequent non-missing
values (pandas returns the modes sorted and the source takes entry 0). -/
def moda (vs : List Value) : Option Value :=
  let l := vs.filter (fun v => decide (v ≠ Value.na))
  let cands := List.insertionSort (fun a b => valLEb a b = true) l.dedup
  cands.foldl
    (fun best c =>
      match best with
      | none => some c
      | some b => if l.count c > l.count b then some c else best) none

/-- fillna(method='ffill'): each missing cell inherits the nearest
preceding non-missing cell; leading missing cells stay missing. -/
def ffillVals : Option Value → List Value → List Value
  | _, [] => []
  | carry, v :: vs =>
    if v = Value.na then (carry.getD Value.na) :: ffillVals carry vs
    else v :: ffillVals (some v) vs

/-- fillna(x) on one cell. -/
def rellenarNa (x : Value) (v : Value) : Value := if v = Value.na then x else v

/-- One iteration of the strategy loop of limpieza.manejar_valores_nulos:
skip absent columns and columns without missing cells, then dispatch on
the strategy tag exactly as the source does. -/
def aplicar_estrategia (t : Table) (e : String × String) : Table :=
  if e.1 ∈ t.cols then
    if countNa (colVals t e.1) = 0 then t
    else if e.2 = "MISSING" then
      setColVals t e.1 ((colVals t e.1).map (rellenarNa (Value.str "MISSING")))
    else if e.2 = "mediana" then
      setColVals t e.1
        ((colVals t e.1).map (rellenarNa (((mediana (colVals t e.1)).map Value.num).getD Value.na)))
    else if e.2 = "media" then
      setColVals t e.1
        ((colVals t e.1).map (rellenarNa (((media (colVals t e.1)).map Value.num).getD Value.na)))
    else if e.2 = "moda" then
      setColVals t e.1
        ((colVals t e.1).map (rellenarNa ((moda (colVals t e.1)).getD Value.na)))
    else if e.2 = "ffill" then
      setColVals t e.1 (ffillVals none (colVals t e.1))
    else if e.2 = "eliminar" then
      ⟨t.cols, t.rows.filter (fun r => decide (getVal r (colIdx t e.1) ≠ Value.na))⟩
    else t
  else t

/-- limpieza.manejar_valores_nulos: apply the per-column strategies in
the order of the strategy table. -/
def manejar_valores_nulos (t : Table)
    (estrategias : List (String × String) := ESTRATEGIA_NULOS) : Table :=
  estrategias.foldl aplicar_estrategia t

/-- The four fill entries of ESTRATEGIA_NULOS -- every configured
strategy except the row-removal entry for churn_label. -/
def ENTRADAS_RELLENO : List (String × String) :=
  [("phone", "MISSING"), ("monthly_spend", "mediana"),
   ("total_shipments", "mediana"), ("last_purchase_date", "ffill")]

/-- New column contents produced by one fill strategy from the old
column contents (the non-row-removal arms of aplicar_estrategia). -/
def rellenoDe (s : String) (vs : List Value) : List Value :=
  if s = "MISSING" then vs.map (rellenarNa (Value.str "MISSING"))
  else if s = "mediana" then
    vs.map (rellenarNa (((mediana vs).map Value.num).getD Value.na))
  else if s = "media" then
    vs.map (rellenarNa (((media vs).map Value.num).getD Value.na))
  else if s = "moda" then vs.map (rellenarNa ((moda vs).getD Value.na))
  else if s = "ffill" then ffillVals none vs
  else vs

/-- df.loc[df[c] < 0, c] = 0 on one cell (NaN compares false and is left
alone, as in pandas). -/
def capNeg : Value → Value
  | Value.num q => if q < 0 then Value.num 0 else Value.num q
  | v => v

/-- df.loc[df[c] > umbral, c] = umbral on one cell. -/
def capMax (umbral : ℚ) : Value → Value
  | Value.num q => if q > umbral then Value.num umbral else Value.num q
  | v => v

/-- limpieza.corregir_outliers with the 'cap' method: clamp negative
monthly_spend to 0 and values above UMBRAL_GASTO_MAXIMO to the
threshold; clamp total_shipments above UMBRAL_ENVIOS_MAXIMO.  Other
columns and methods leave the table unchanged, as in the source. -/
def corregir_outliers (t : Table) (columna : String)
    (metodo : String := "cap") : Table :=
  if columna ∉ t.cols then t
  else if metodo = "cap" then
    if columna = "monthly_spend" then
      mapCol (mapCol t columna capNeg) columna (capMax UMBRAL_GASTO_MAXIMO)
    else if columna = "total_shipments" then
      mapCol t columna (capMax UMBRAL_ENVIOS_MAXIMO)
    else t
  else t

-- ===========================================================================
-- bronze_a_silver.py: type coercion (paso 4) and the cleaned-layer chain
-- ===========================================================================

/-- Paso 4 of transformar_bronze_a_silver: df.replace of the sentinels
'NULL', '' and 'N/A' by NaN over the whole table. -/
def reemplazarCentinelas (t : Table) : Table :=
  ⟨t.cols,
   t.rows.map (List.map (fun v =>
     if v = Value.str "NULL" ∨ v = Value.str "" ∨ v = Value.str "N/A"
     then Value.na else v))⟩

/-- Paso 4 of transformar_bronze_a_silver: sentinel replacement followed
by pd.to_numeric(errors='coerce') on the three numeric columns. -/
def convertir_tipos (t : Table) : Table :=
  (["monthly_spend", "total_shipments", "churn_label"]).foldl
    (fun acc c => if c ∈ acc.cols then mapCol acc c parseNumV else acc)
    (reemplazarCentinelas t)

/-- The cleaned-layer sequence of transformar_bronze_a_silver restricted
to the data-changing stages named by the spec: deduplication, date
normalization, type coercion, outlier correction on both bounded
columns, and null handling under the configured strategies. -/
def limpieza_silver (t : Table) : Table :=
  manejar_valores_nulos
    (corregir_outliers
      (corregir_outliers
        (convertir_tipos
          (normalizar_fechas (detectar_duplicados t "customer_id")
            ["signup_date", "last_purchase_date"]))
        "monthly_spend" "cap")
      "total_shipments" "cap")
    ESTRATEGIA_NULOS

-- ===========================================================================
-- hashing.py and its external collaborator hashlib.sha256: the hash is
-- modelled by the actual SHA-256 function (FIPS 180-4) over the UTF-8
-- bytes of the salted text, with the round constants derived, as in the
-- standard, from the fractional square and cube roots of the first primes.
-- ===========================================================================

/-- Reduction to a 32-bit word. -/
def w32 (n : ℕ) : ℕ := n % 4294967296

/-- Right rotation of a 32-bit word (the two shifted parts occupy
disjoint bit ranges, so addition realizes their disjunction). -/
def rotr32 (x n : ℕ) : ℕ := w32 (x / 2 ^ n + x * 2 ^ (32 - n))

/-- The first 64 primes, seeds of the SHA-256 constants. -/
def primos64 : List ℕ :=
  [2, 3, 5, 7, 11, 13, 17, 19, 23, 29, 31, 37, 41, 43, 47, 53,
   59, 61, 67, 71, 73, 79, 83, 89, 97, 101, 103, 107, 109, 113, 127, 131,
   137, 139, 149, 151, 157, 163, 167, 173, 179, 181, 191, 193, 197, 199, 211, 223,
   227, 229, 233, 239, 241, 251, 257, 263, 269, 271, 277, 281, 283, 293, 307, 311]

/-- Integer cube root by binary digit descent (enough bits for the
constant derivation below). -/
def icbrtGo (n : ℕ) : ℕ → ℕ → ℕ
  | 0, r => r
  | k + 1, r =>
    let c := r + 2 ^ k
    if c ^ 3 ≤ n then icbrtGo n k c else icbrtGo n k r

def icbrt (n : ℕ) : ℕ := icbrtGo n 40 0

/-- K: first 32 bits of the fractional parts of the cube roots of the
first 64 primes. -/
def K256 : List ℕ := primos64.map (fun p => icbrt (p * 2 ^ 96) % 2 ^ 32)

/-- H0: first 32 bits of the fractional parts of the square roots of the
first 8 primes. -/
def H256 : List ℕ := (primos64.take 8).map (fun p => Nat.sqrt (p * 2 ^ 64) % 2 ^ 32)

/-- The eight 32-bit working variables of SHA-256 compression. -/
structure ShaState where
  a : ℕ
  b : ℕ
  c : ℕ
  d : ℕ
  e : ℕ
  f : ℕ
  g : ℕ
  h : ℕ
  deriving DecidableEq

def estadoInicial : ShaState :=
  ⟨H256.getD 0 0, H256.getD 1 0, H256.getD 2 0, H256.getD 3 0,
   H256.getD 4 0, H256.getD 5 0, H256.getD 6 0, H256.getD 7 0⟩

/-- One SHA-256 compression round with round constant and schedule word kw. -/
def shaRound (s : ShaState) (kw : ℕ × ℕ) : ShaState :=
  let S1 := rotr32 s.e 6 ^^^ rotr32 s.e 11 ^^^ rotr32 s.e 25
  let ch := (s.e &&& s.f) ^^^ ((4294967295 - w32 s.e) &&& s.g)
  let t1 := w32 (s.h + S1 + ch + kw.1 + kw.2)
  let S0 := rotr32 s.a 2 ^^^ rotr32 s.a 13 ^^^ rotr32 s.a 22
  let maj := (s.a &&& s.b) ^^^ (s.a &&& s.c) ^^^ (s.b &&& s.c)
  let t2 := w32 (S0 + maj)
  ⟨w32 (t1 + t2), s.a, s.b, s.c, w32 (s.d + t1), s.e, s.f, s.g⟩

/-- Message-schedule extension: append one word per fuel step. -/
def extenderW : List ℕ → ℕ → List ℕ
  | ws, 0 => ws
  | ws, k + 1 =>
    let n := ws.length
    let x15 := ws.getD (n - 15) 0
    let x2 := ws.getD (n - 2) 0
    let s0 := rotr32 x15 7 ^^^ rotr32 x15 18 ^^^ x15 / 2 ^ 3
    let s1 := rotr32 x2 17 ^^^ rotr32 x2 19 ^^^ x2 / 2 ^ 10
    extenderW (ws ++ [w32 (ws.getD (n - 16) 0 + s0 + ws.getD (n - 7) 0 + s1)]) k

/-- Big-endian packing of bytes into 32-bit words. -/
def palabras : List ℕ → List ℕ
  | b0 :: b1 :: b2 :: b3 :: rest =>
    (((b0 * 256 + b1) * 256 + b2) * 256 + b3) :: palabras rest
  | _ => []

/-- Big-endian 8-byte encoding of the bit length. -/
def be8 (n : ℕ) : List ℕ :=
  [n / 2 ^ 56 % 256, n / 2 ^ 48 % 256, n / 2 ^ 40 % 256, n / 2 ^ 32 % 256,
   n / 2 ^ 24 % 256, n / 2 ^ 16 % 256, n / 2 ^ 8 % 256, n % 256]

/-- SHA-256 padding: one 0x80 byte, zeros to 56 mod 64, then the
64-bit message bit length. -/
def relleno (msg : List ℕ) : List ℕ :=
  msg ++ [128] ++ List.replicate ((119 - msg.length % 64) % 64) 0
      ++ be8 (msg.length * 8)

/-- Split the padded message into 64-byte blocks. -/
def bloquesGo : ℕ → List ℕ → List (List ℕ)
  | 0, _ => []
  | _, [] => []
  | fuel + 1, l => l.take 64 :: bloquesGo fuel (l.drop 64)

def bloques (l : List ℕ) : List (List ℕ) := bloquesGo l.length l

/-- Compress one 64-byte block into the chaining state. -/
def comprimirBloque (s : ShaState) (blk : List ℕ) : ShaState :=
  let ws := extenderW (palabras blk) 48
  let r := (K256.zip ws).foldl shaRound s
  ⟨w32 (s.a + r.a), w32 (s.b + r.b), w32 (s.c + r.c), w32 (s.d + r.d),
   w32 (s.e + r.e), w32 (s.f + r.f), w32 (s.g + r.g), w32 (s.h + r.h)⟩

/-- SHA-256 of a byte sequence, as the final chaining state. -/
def sha256Estado (msg : List ℕ) : ShaState :=
  (bloques (relleno msg)).foldl comprimirBloque estadoInicial

/-- UTF-8 encoding of one character. -/
def utf8Char (c : Char) : List ℕ :=
  let n := c.toNat
  if n < 128 then [n]
  else if n < 2048 then [192 + n / 64, 128 + n % 64]
  else if n < 65536 then [224 + n / 4096, 128 + n / 64 % 64, 128 + n % 64]
  else [240 + n / 262144, 128 + n / 4096 % 64, 128 + n / 64 % 64, 128 + n % 64]

def utf8Bytes (s : String) : List ℕ :=
  s.data.foldr (fun c acc => utf8Char c ++ acc) []

def hexDigito (n : ℕ) : Char := Char.ofNat (if n < 10 then 48 + n else 87 + n)

/-- Lowercase hexadecimal rendering of one 32-bit word, 8 digits. -/
def hexPalabra (n : ℕ) : List Char :=
  [hexDigito (n / 2 ^ 28 % 16), hexDigito (n / 2 ^ 24 % 16),
   hexDigito (n / 2 ^ 20 % 16), hexDigito (n / 2 ^ 16 % 16),
   hexDigito (n / 2 ^ 12 % 16), hexDigito (n / 2 ^ 8 % 16),
   hexDigito (n / 2 ^ 4 % 16), hexDigito (n % 16)]

/-- hashlib.sha256(...).hexdigest() over the UTF-8 bytes of a text. -/
def sha256hex (s : String) : String :=
  let st := sha256Estado (utf8Bytes s)
  ⟨hexPalabra st.a ++ hexPalabra st.b ++ hexPalabra st.c ++ hexPalabra st.d
   ++ hexPalabra st.e ++ hexPalabra st.f ++ hexPalabra st.g ++ hexPalabra st.h⟩

/-- Python str.strip on the ASCII whitespace the pipeline's text can
contain. -/
def esEspacio (c : Char) : Bool :=
  c = ' ' || c = '\t' || c = '\n' || c = '\r' || c.toNat = 11 || c.toNat = 12

def recortar (s : String) : String :=
  ⟨((s.data.dropWhile esEspacio).reverse.dropWhile esEspacio).reverse⟩

/-- hashing.hashear_valor: None (or NaN) and whitespace-only text map to
the literal marker 'NULL'; any other text is hashed salted. -/
def hashear_valor (valor : Option String) (salt : String := SALT_HASHING) : String :=
  match valor with
  | none => "NULL"
  | some v => if recortar v = "" then "NULL" else sha256hex (salt ++ v)

/-- hashear_valor on a cell.  The configured PII columns hold text or
missing cells; other cell kinds do not occur there and are mapped to the
missing marker. -/
def hashear_valorV (salt : String) : Value → Value
  | Value.na => Value.str (hashear_valor none salt)
  | Value.str s => Value.str (hashear_valor (some s) salt)
  | _ => Value.na

/-- hashing.hashear_columna: hash every cell of a column. -/
def hashear_columna (vs : List Value) (salt : String := SALT_HASHING) : List Value :=
  vs.map (hashear_valorV salt)

/-- hashing.hashear_datos_sensibles: on a copy of the table, add a
hashed column per present configured column and drop the originals. -/
def hashear_datos_sensibles (t : Table)
    (columnas : List String := COLUMNAS_SENSIBLES)
    (sufijo : String := "_hash") : Table :=
  let presentes := columnas.filter (fun c => decide (c ∈ t.cols))
  let conHash := presentes.foldl
    (fun acc c => setColVals acc (c ++ sufijo) (hashear_columna (colVals acc c) SALT_HASHING))
    t
  quitarColumnas conHash presentes

/-- The caller's view of its own table after hashear_datos_sensibles
returns: the source's first statement is df_copia = df.copy(), and every
later statement reads or writes df_copia only, so the caller's snapshot
is untouched. -/
def hashear_datos_sensibles_llamador (t : Table)
    (_columnas : List String := COLUMNAS_SENSIBLES)
    (_sufijo : String := "_hash") : Table :=
  t

-- ===========================================================================
-- features.py
-- ===========================================================================

/-- Maximum of the date cells of a column (df[c].max() skips NaT). -/
def colMaxDate (t : Table) (c : String) : Option ℤ :=
  (colVals t c).foldl
    (fun acc v =>
      match v, acc with
      | Value.date d, none => some d
      | Value.date d, some m => some (max m d)
      | _, acc => acc) none

/-- Maximum of the numeric cells of a column (df[c].max() skips NaN). -/
def colMaxQ (t : Table) (c : String) : Option ℚ :=
  (colVals t c).foldl
    (fun acc v =>
      match v, acc with
      | Value.num q, none => some q
      | Value.num q, some m => some (max m q)
      | _, acc => acc) none

/-- (fecha_referencia - fecha).dt.days on one cell: day difference for a
date cell, missing for NaT. -/
def restarDias (ref : ℤ) : Value → Value
  | Value.date d => Value.num ((ref - d : ℤ) : ℚ)
  | _ => Value.na

/-- features.calcular_recencia: reference date (the column maximum when
none is given, the only form the pipeline uses), day distance to it, and
the recency category.  The claims use it on tables whose date column has
a defined maximum, the domain on which the source runs to completion. -/
def calcular_recencia (t : Table) (columnaFecha : String := "last_purchase_date")
    (fechaReferencia : Option ℤ := none) : Table :=
  let ref := (fechaReferencia.orElse (fun _ => colMaxDate t columnaFecha)).getD 0
  let t1 := setColVals t "recencia_dias" ((colVals t columnaFecha).map (restarDias ref))
  setColVals t1 "categoria_recencia"
    ((colVals t1 "recencia_dias").map (cortarV BINS_RECENCIA ETIQUETAS_RECENCIA))

/-- The caller's view of its table after calcular_recencia returns: both
statements of the source body assign columns on the frame the caller
passed in (df[...] = ...), and the function returns that same frame, so
the caller's snapshot coincides with the returned one. -/
def calcular_recencia_llamador (t : Table)
    (columnaFecha : String := "last_purchase_date")
    (fechaReferencia : Option ℤ := none) : Table :=
  calcular_recencia t columnaFecha fechaReferencia

/-- features.calcular_antiguedad (the reference defaults to the maximum
last_purchase_date, as in the source). -/
def calcular_antiguedad (t : Table) (columnaSignup : String := "signup_date")
    (fechaReferencia : Option ℤ := none) : Table :=
  let ref := (fechaReferencia.orElse (fun _ => colMaxDate t "last_purchase_date")).getD 0
  let t1 := setColVals t "antiguedad_dias" ((colVals t columnaSignup).map (restarDias ref))
  setColVals t1 "categoria_antiguedad"
    ((colVals t1 "antiguedad_dias").map (cortarV BINS_ANTIGUEDAD ETIQUETAS_ANTIGUEDAD))

/-- features.categorizar_monetary. -/
def categorizar_monetary (t : Table) (columnaGasto : String := "monthly_spend") : Table :=
  setColVals t "segmento_gasto"
    ((colVals t columnaGasto).map (cortarV BINS_GASTO_MENSUAL ETIQUETAS_GASTO))

/-- features.categorizar_frequency. -/
def categorizar_frequency (t : Table) (columnaEnvios : String := "total_shipments") : Table :=
  setColVals t "segmento_frecuencia"
    ((colVals t columnaEnvios).map (cortarV BINS_FRECUENCIA_ENVIOS ETIQUETAS_FRECUENCIA))

/-- 1 - dias/max on one recency cell. -/
def normRecencia (recMax : ℚ) : Value → Value
  | Value.num q => Value.num (1 - q / recMax)
  | _ => Value.na

/-- dias/max on one cell. -/
def normMax (m : ℚ) : Value → Value
  | Value.num q => Value.num (q / m)
  | _ => Value.na

/-- The weighted engagement combination of the three normalized cells. -/
def engScoreV : Value → Value → Value → Value
  | Value.num r, Value.num f, Value.num g =>
    Value.num ((r * 0.4 + f * 0.3 + g * 0.3) * 100)
  | _, _, _ => Value.na

/-- features.calcular_engagement_score: the three normalization columns,
the weighted score in [0,100], its category, and removal of the
normalization columns.  Each maximum is the batch maximum of its
column. -/
def calcular_engagement_score (t : Table) : Table :=
  let recMax := (colMaxQ t "recencia_dias").getD 0
  let t1 := setColVals t "recencia_norm" ((colVals t "recencia_dias").map (normRecencia recMax))
  let freqMax := (colMaxQ t1 "total_shipments").getD 0
  let t2 := setColVals t1 "frecuencia_norm" ((colVals t1 "total_shipments").map (normMax freqMax))
  let gastoMax := (colMaxQ t2 "monthly_spend").getD 0
  let t3 := setColVals t2 "gasto_norm" ((colVals t2 "monthly_spend").map (normMax gastoMax))
  let t4 := setColVals t3 "engagement_score"
    (t3.rows.map (fun r =>
      engScoreV (getVal r (colIdx t3 "recencia_norm"))
        (getVal r (colIdx t3 "frecuencia_norm"))
        (getVal r (colIdx t3 "gasto_norm"))))
  let t5 := setColVals t4 "nivel_engagement"
    ((colVals t4 "engagement_score").map (cortarV BINS_ENGAGEMENT ETIQUETAS_ENGAGEMENT))
  quitarColumnas t5 ["recencia_norm", "frecuencia_norm", "gasto_norm"]

/-- (df['recencia_dias'] > VENTANA_RECENCIA_DIAS).astype(int) on one
cell; as in pandas, NaN compares false and yields 0. -/
def flagInactividad : Value → Value
  | Value.num q => Value.num (if q > VENTANA_RECENCIA_DIAS then 1 else 0)
  | _ => Value.num 0

/-- (df['engagement_score'] < 30).astype(int) on one cell. -/
def flagBajoEngagement : Value → Value
  | Value.num q => Value.num (if q < 30 then 1 else 0)
  | _ => Value.num 0

/-- ((antiguedad_dias < 180) & (recencia_dias > 90)).astype(int) on one
row's pair of cells. -/
def flagNuevoInactivo : Value → Value → Value
  | Value.num a, Value.num r => Value.num (if a < 180 ∧ 90 < r then 1 else 0)
  | _, _ => Value.num 0

/-- riesgo_inactividad*3 + riesgo_bajo_engagement*2 + riesgo_nuevo_inactivo*1
on one row's flags. -/
def scoreRiesgoV : Value → Value → Value → Value
  | Value.num i, Value.num b, Value.num n => Value.num (i * 3 + b * 2 + n * 1)
  | _, _, _ => Value.na

/-- features.crear_features_riesgo_churn: the three binary risk flags,
their weighted sum, and the risk category cut at the fixed
boundaries. -/
def crear_features_riesgo_churn (t : Table) : Table :=
  let t1 := setColVals t "riesgo_inactividad"
    ((colVals t "recencia_dias").map flagInactividad)
  let t2 := setColVals t1 "riesgo_bajo_engagement"
    ((colVals t1 "engagement_score").map flagBajoEngagement)
  let t3 := setColVals t2 "riesgo_nuevo_inactivo"
    (t2.rows.map (fun r =>
      flagNuevoInactivo (getVal r (colIdx t2 "antiguedad_dias"))
        (getVal r (colIdx t2 "recencia_dias"))))
  let t4 := setColVals t3 "score_riesgo_churn"
    (t3.rows.map (fun r =>
      scoreRiesgoV (getVal r (colIdx t3 "riesgo_inactividad"))
        (getVal r (colIdx t3 "riesgo_bajo_engagement"))
        (getVal r (colIdx t3 "riesgo_nuevo_inactivo"))))
  setColVals t4 "nivel_riesgo"
    ((colVals t4 "score_riesgo_churn").map (cortarV BINS_RIESGO ETIQUETAS_RIESGO))

-- ===========================================================================
-- Shared lemmas about the table primitives
-- ===========================================================================

theorem getD_set_self (r : List Value) (i : ℕ) :
    r.set i (r.getD i Value.na) = r := by
  induction r generalizing i with
  | nil => simp
  | cons x xs ih =>
    cases i with
    | zero => simp
    | succ n => simpa using ih n

theorem getD_set_ne {i j : ℕ} (h : i ≠ j) (r : List Value) (a : Value) :
    (r.set i a).getD j Value.na = r.getD j Value.na := by
  simp [List.getD_eq_getElem?_getD, List.getElem?_set_ne h]

theorem getD_set_lt {i : ℕ} (r : List Value) (a : Value) (h : i < r.length) :
    (r.set i a).getD i Value.na = a := by
  simp [List.getD_eq_getElem?_getD, List.getElem?_set_eq (by simpa using h)]

theorem getD_append_left {j : ℕ} (r s : List Value) (h : j < r.length) :
    (r ++ s).getD j Value.na = r.getD j Value.na := by
  simp [List.getD_eq_getElem?_getD, List.getElem?_append, h]

theorem getD_append_self (r : List Value) (v : Value) :
    (r ++ [v]).getD r.length Value.na = v := by
  simp [List.getD_eq_getElem?_getD, List.getElem?_append]

theorem getD_of_length_le {i : ℕ} (r : List Value) (h : r.length ≤ i) :
    r.getD i Value.na = Value.na := by
  simp [List.getD_eq_getElem?_getD, List.getElem?_eq_none h]

theorem zipWith_map_right_same {α β γ : Type} (f : α → β → γ) (g : α → β)
    (l : List α) :
    List.zipWith f l (l.map g) = l.map (fun x => f x (g x)) := by
  induction l with
  | nil => rfl
  | cons x xs ih => simp [ih]

theorem zipWith_const_left {α β γ : Type} (h : α → γ) (l1 : List α)
    (l2 : List β) (hl : l1.length ≤ l2.length) :
    List.zipWith (fun a _ => h a) l1 l2 = l1.map h := by
  induction l1 generalizing l2 with
  | nil => rfl
  | cons x xs ih =>
    cases l2 with
    | nil => simp at hl
    | cons y ys => simpa using ih ys (by simpa using hl)

theorem foldl_fixed {α β : Type} (f : β → α → β) (b : β) (l : List α)
    (h : ∀ e ∈ l, f b e = b) : l.foldl f b = b := by
  induction l with
  | nil => rfl
  | cons x xs ih =>
    rw [List.foldl_cons, h x (by simp)]
    exact ih (fun e he => h e (by simp [he]))

theorem mem_zipWith_elim {α β γ : Type} {f : α → β → γ} {l1 : List α}
    {l2 : List β} {x : γ} (hx : x ∈ List.zipWith f l1 l2) :
    ∃ a ∈ l1, ∃ b ∈ l2, x = f a b := by
  induction l1 generalizing l2 with
  | nil => simp at hx
  | cons a as ih =>
    cases l2 with
    | nil => simp at hx
    | cons b bs =>
      rcases List.mem_cons.mp hx with h | h
      · exact ⟨a, by simp, b, by simp, h⟩
      · obtain ⟨a', ha', b', hb', rfl⟩ := ih h
        exact ⟨a', by simp [ha'], b', by simp [hb'], rfl⟩

theorem indexOf_ne_indexOf_of_mem {c c' : String} {l : List String}
    (hc : c ∈ l) (hne : c' ≠ c) : List.indexOf c' l ≠ List.indexOf c l := by
  intro heq
  have hlt : List.indexOf c l < l.length := List.indexOf_lt_length.mpr hc
  have hlt' : List.indexOf c' l < l.length := by rw [heq]; exact hlt
  have h1 : l.get ⟨List.indexOf c' l, hlt'⟩ = c' := by
    simpa using List.getElem_indexOf hlt'
  have h2 : l.get ⟨List.indexOf c l, hlt⟩ = c := by
    simpa using List.getElem_indexOf hlt
  have hfin : (⟨List.indexOf c' l, hlt'⟩ : Fin l.length) = ⟨List.indexOf c l, hlt⟩ :=
    Fin.ext heq
  rw [hfin, h2] at h1
  exact hne h1.symm

theorem indexOf_eq_length_of_not_mem {c : String} {l : List String}
    (h : c ∉ l) : List.indexOf c l = l.length :=
  List.indexOf_eq_length.mpr h

theorem cols_setColVals_of_mem {t : Table} {c : String} (h : c ∈ t.cols)
    (vs : List Value) : (setColVals t c vs).cols = t.cols := by
  simp [setColVals, if_pos h]

theorem rows_length_setColVals_of_mem {t : Table} {c : String} (h : c ∈ t.cols)
    {vs : List Value} (hl : vs.length = t.rows.length) :
    (setColVals t c vs).rows.length = t.rows.length := by
  simp [setColVals, if_pos h, List.length_zipWith, hl]

theorem setColVals_colVals_self {t : Table} {c : String} (h : c ∈ t.cols) :
    setColVals t c (colVals t c) = t := by
  unfold setColVals colVals
  rw [if_pos h]
  rw [zipWith_map_right_same]
  show Table.mk t.cols (t.rows.map fun r => r.set (colIdx t c) (getVal r (colIdx t c))) = t
  have : ∀ r : List Value, r.set (colIdx t c) (getVal r (colIdx t c)) = r :=
    fun r => getD_set_self r (colIdx t c)
  simp [this]

theorem mapCol_id {t : Table} {c : String} {f : Value → Value} (h : c ∈ t.cols)
    (hf : ∀ r ∈ t.rows, f (getVal r (colIdx t c)) = getVal r (colIdx t c)) :
    mapCol t c f = t := by
  unfold mapCol
  have : (colVals t c).map f = colVals t c := by
    unfold colVals
    rw [List.map_map]
    exact List.map_congr_left (fun r hr => hf r hr)
  rw [this]
  exact setColVals_colVals_self h

theorem aligned_setColVals_of_mem {t : Table} {c : String} (h : c ∈ t.cols)
    (halin : Aligned t) (vs : List Value) : Aligned (setColVals t c vs) := by
  intro r hr
  simp only [setColVals, if_pos h] at hr ⊢
  obtain ⟨a, ha, b, _, rfl⟩ := mem_zipWith_elim hr
  simp [halin a ha]

theorem colVals_mapCol_self {t : Table} {c : String} (h : c ∈ t.cols)
    (halin : Aligned t) (f : Value → Value) :
    colVals (mapCol t c f) c = (colVals t c).map f := by
  unfold mapCol setColVals
  rw [if_pos h]
  unfold colVals colIdx
  simp only
  rw [List.map_map, zipWith_map_right_same, List.map_map]
  refine List.map_congr_left (fun r hr => ?_)
  have hidx : List.indexOf c t.cols < r.length := by
    rw [halin r hr]
    exact List.indexOf_lt_length.mpr h
  simp only [Function.comp]
  exact getD_set_lt r _ hidx

theorem colVals_mapCol_ne {t : Table} {c c' : String} (h : c ∈ t.cols)
    (hne : c' ≠ c) (f : Value → Value) :
    colVals (mapCol t c f) c' = colVals t c' := by
  unfold mapCol setColVals
  rw [if_pos h]
  unfold colVals colIdx
  simp only
  rw [List.map_map, zipWith_map_right_same]
  rw [List.map_map]
  refine List.map_congr_left (fun r hr => ?_)
  simp only [Function.comp]
  exact getD_set_ne (indexOf_ne_indexOf_of_mem h hne).symm r _

theorem aligned_mapCol {t : Table} {c : String} (h : c ∈ t.cols)
    (halin : Aligned t) (f : Value → Value) : Aligned (mapCol t c f) :=
  aligned_setColVals_of_mem h halin _

theorem colVals_all_na_of_not_mem {t : Table} {c : String} (h : c ∉ t.cols)
    (halin : Aligned t) : ∀ v ∈ colVals t c, v = Value.na := by
  intro v hv
  obtain ⟨r, hr, rfl⟩ := List.mem_map.mp hv
  unfold getVal colIdx
  exact getD_of_length_le r (by rw [halin r hr, indexOf_eq_length_of_not_mem h])

-- ===========================================================================
-- Branch characterizations of corregir_outliers
-- ===========================================================================

theorem corregir_outliers_absent {t : Table} {c : String} (h : c ∉ t.cols)
    (m : String) : corregir_outliers t c m = t := by
  unfold corregir_outliers
  rw [if_pos h]

theorem corregir_outliers_spend_eq {t : Table} (h : "monthly_spend" ∈ t.cols) :
    corregir_outliers t "monthly_spend" "cap"
      = mapCol (mapCol t "monthly_spend" capNeg) "monthly_spend"
        (capMax UMBRAL_GASTO_MAXIMO) := by
  unfold corregir_outliers
  rw [if_neg (by simpa using h), if_pos rfl, if_pos rfl]

theorem corregir_outliers_ship_eq {t : Table} (h : "total_shipments" ∈ t.cols) :
    corregir_outliers t "total_shipments" "cap"
      = mapCol t "total_shipments" (capMax UMBRAL_ENVIOS_MAXIMO) := by
  unfold corregir_outliers
  rw [if_neg (by simpa using h), if_pos rfl, if_neg (by decide), if_pos rfl]

theorem cols_mapCol_of_mem {t : Table} {c : String} (h : c ∈ t.cols)
    (f : Value → Value) : (mapCol t c f).cols = t.cols :=
  cols_setColVals_of_mem h _

theorem cols_corregir_spend {t : Table} :
    (corregir_outliers t "monthly_spend" "cap").cols = t.cols := by
  by_cases h : "monthly_spend" ∈ t.cols
  · rw [corregir_outliers_spend_eq h,
      cols_mapCol_of_mem (by rw [cols_mapCol_of_mem h]; exact h),
      cols_mapCol_of_mem h]
  · rw [corregir_outliers_absent h]

theorem aligned_corregir_spend {t : Table} (halin : Aligned t) :
    Aligned (corregir_outliers t "monthly_spend" "cap") := by
  by_cases h : "monthly_spend" ∈ t.cols
  · rw [corregir_outliers_spend_eq h]
    exact aligned_mapCol (by rw [cols_mapCol_of_mem h]; exact h)
      (aligned_mapCol h halin _) _
  · rw [corregir_outliers_absent h]; exact halin

-- ===========================================================================
-- Claim C9: hashear_valor determinism and the NULL marker
-- ===========================================================================

theorem length_hexPalabra (n : ℕ) : (hexPalabra n).length = 8 := rfl

theorem length_sha256hex (s : String) : (sha256hex s).length = 64 := by
  show (hexPalabra _ ++ hexPalabra _ ++ hexPalabra _ ++ hexPalabra _
    ++ hexPalabra _ ++ hexPalabra _ ++ hexPalabra _ ++ hexPalabra _).length = 64
  simp [List.length_append, length_hexPalabra]

/-- Claim C9: hashear_valor is deterministic -- it is a function of the
input value and the salt alone, so equal inputs and salts always produce
the same hash string -- and a missing input (None/NaN) or a
whitespace-only text yields the literal marker 'NULL', while any other
text yields a 64-character digest, never the marker. -/
theorem hashear_valor_deterministico_y_null :
    (∀ (v1 v2 : Option String) (s1 s2 : String),
      v1 = v2 → s1 = s2 → hashear_valor v1 s1 = hashear_valor v2 s2)
    ∧ (∀ s : String, hashear_valor none s = "NULL")
    ∧ (∀ v s : String, recortar v = "" → hashear_valor (some v) s = "NULL")
    ∧ (∀ v s : String, recortar v ≠ "" → hashear_valor (some v) s ≠ "NULL") := by
  refine ⟨fun v1 v2 s1 s2 hv hs => by rw [hv, hs], fun s => rfl, ?_, ?_⟩
  · intro v s hv
    show (if recortar v = "" then "NULL" else sha256hex (s ++ v)) = "NULL"
    rw [if_pos hv]
  · intro v s hv hcontra
    rw [show hashear_valor (some v) s
        = (if recortar v = "" then "NULL" else sha256hex (s ++ v)) from rfl,
      if_neg hv] at hcontra
    have h64 : (sha256hex (s ++ v)).length = 64 := length_sha256hex _
    rw [hcontra] at h64
    exact absurd h64 (by decide)

theorem hashear_valor_null_witness :
    hashear_valor (some "  ") SALT_HASHING = "NULL"
    ∧ hashear_valor (some "a") SALT_HASHING ≠ "NULL" :=
  ⟨hashear_valor_deterministico_y_null.2.2.1 "  " SALT_HASHING (by decide),
   hashear_valor_deterministico_y_null.2.2.2 "a" SALT_HASHING (by decide)⟩

-- ===========================================================================
-- Claim C10: null handling can leave missing values behind
-- ===========================================================================

/-- Claim C10: the null-handling stage does not guarantee a null-free
table.  On this input, a missing signup_date is untouched (no strategy
is configured for that column) and the missing last_purchase_date of the
first row is untouched (forward fill has nothing to propagate), so the
whole table passes through unchanged and still contains missing
values. -/
theorem manejar_valores_nulos_deja_nulos :
    manejar_valores_nulos
        (Table.mk ["customer_id", "signup_date", "last_purchase_date"]
          [[Value.str "C1", Value.na, Value.na],
           [Value.str "C2", Value.na, Value.date 5]])
        ESTRATEGIA_NULOS
      = Table.mk ["customer_id", "signup_date", "last_purchase_date"]
          [[Value.str "C1", Value.na, Value.na],
           [Value.str "C2", Value.na, Value.date 5]]
    ∧ getVal [Value.str "C1", Value.na, Value.na] 1 = Value.na
    ∧ getVal [Value.str "C1", Value.na, Value.na] 2 = Value.na :=
  ⟨by decide, rfl, rfl⟩

-- ===========================================================================
-- Claim C8: outlier correction bounds
-- ===========================================================================

theorem capNeg_capMax_bounds (v : Value) (q : ℚ)
    (h : capMax UMBRAL_GASTO_MAXIMO (capNeg v) = Value.num q) :
    0 ≤ q ∧ q ≤ UMBRAL_GASTO_MAXIMO := by
  cases v with
  | num p =>
    by_cases hp : p < 0
    · simp only [capNeg, if_pos hp, capMax] at h
      rw [if_neg (by norm_num [UMBRAL_GASTO_MAXIMO])] at h
      cases h
      norm_num [UMBRAL_GASTO_MAXIMO]
    · simp only [capNeg, if_neg hp, capMax] at h
      by_cases hm : p > UMBRAL_GASTO_MAXIMO
      · rw [if_pos hm] at h
        cases h
        norm_num [UMBRAL_GASTO_MAXIMO]
      · rw [if_neg hm] at h
        cases h
        exact ⟨le_of_not_lt hp, le_of_not_lt hm⟩
  | na => simp [capNeg, capMax] at h
  | str s => simp [capNeg, capMax] at h
  | date d => simp [capNeg, capMax] at h

theorem capMax_bound (m : ℚ) (v : Value) (q : ℚ)
    (h : capMax m v = Value.num q) : q ≤ m ∨ (v = Value.num q ∧ ¬ q > m) := by
  cases v with
  | num p =>
    by_cases hp : p > m
    · rw [capMax, if_pos hp] at h
      cases h
      exact Or.inl (le_refl m)
    · rw [capMax, if_neg hp] at h
      cases h
      exact Or.inl (le_of_not_lt hp)
  | na => simp [capMax] at h
  | str s => simp [capMax] at h
  | date d => simp [capMax] at h

theorem mem_colVals_corregido_spend {t : Table} (halin : Aligned t) (q : ℚ)
    (hq : Value.num q ∈
      colVals (corregir_outliers (corregir_outliers t "monthly_spend" "cap")
        "total_shipments" "cap") "monthly_spend") :
    0 ≤ q ∧ q ≤ UMBRAL_GASTO_MAXIMO := by
  set t1 := corregir_outliers t "monthly_spend" "cap" with ht1
  have hcols1 : t1.cols = t.cols := cols_corregir_spend
  have halin1 : Aligned t1 := aligned_corregir_spend halin
  have hq2 : Value.num q ∈ colVals t1 "monthly_spend" := by
    by_cases hsh : "total_shipments" ∈ t1.cols
    · rwa [corregir_outliers_ship_eq hsh,
        colVals_mapCol_ne hsh (by decide) _] at hq
    · rwa [corregir_outliers_absent hsh] at hq
  by_cases hsp : "monthly_spend" ∈ t.cols
  · rw [ht1, corregir_outliers_spend_eq hsp,
      colVals_mapCol_self (by rw [cols_mapCol_of_mem hsp]; exact hsp)
        (aligned_mapCol hsp halin _),
      colVals_mapCol_self hsp halin, List.map_map] at hq2
    obtain ⟨v, _, hv⟩ := List.mem_map.mp hq2
    simp only [Function.comp_apply] at hv
    exact capNeg_capMax_bounds v q hv
  · rw [ht1, corregir_outliers_absent hsp] at hq2
    have := colVals_all_na_of_not_mem hsp halin _ hq2
    simp at this

theorem mem_colVals_corregido_ship {t : Table} (halin : Aligned t) (q : ℚ)
    (hq : Value.num q ∈
      colVals (corregir_outliers (corregir_outliers t "monthly_spend" "cap")
        "total_shipments" "cap") "total_shipments") :
    q ≤ UMBRAL_ENVIOS_MAXIMO := by
  set t1 := corregir_outliers t "monthly_spend" "cap" with ht1
  have halin1 : Aligned t1 := aligned_corregir_spend halin
  by_cases hsh : "total_shipments" ∈ t1.cols
  · rw [corregir_outliers_ship_eq hsh, colVals_mapCol_self hsh halin1] at hq
    obtain ⟨v, _, hv⟩ := List.mem_map.mp hq
    cases v with
    | num p =>
      by_cases hp : p > UMBRAL_ENVIOS_MAXIMO
      · rw [capMax, if_pos hp] at hv
        cases hv
        exact le_refl _
      · rw [capMax, if_neg hp] at hv
        cases hv
        exact le_of_not_lt hp
    | na => simp [capMax] at hv
    | str s => simp [capMax] at hv
    | date d => simp [capMax] at hv
  · rw [corregir_outliers_absent hsh] at hq
    have := colVals_all_na_of_not_mem hsh halin1 _ hq
    simp at this

/-- Claim C8: after 'cap' correction of both bounded columns, every
numeric monthly_spend cell lies in [0, UMBRAL_GASTO_MAXIMO] and every
numeric total_shipments cell is at most UMBRAL_ENVIOS_MAXIMO; cellwise,
negative spends become 0 and values above either configured maximum
become that maximum.  (Missing cells carry no numeric value and pass
through untouched, as in pandas.) -/
theorem corregir_outliers_cotas :
    (∀ t : Table, Aligned t → ∀ q : ℚ, Value.num q ∈
        colVals (corregir_outliers (corregir_outliers t "monthly_spend" "cap")
          "total_shipments" "cap") "monthly_spend" →
        0 ≤ q ∧ q ≤ UMBRAL_GASTO_MAXIMO)
    ∧ (∀ t : Table, Aligned t → ∀ q : ℚ, Value.num q ∈
        colVals (corregir_outliers (corregir_outliers t "monthly_spend" "cap")
          "total_shipments" "cap") "total_shipments" →
        q ≤ UMBRAL_ENVIOS_MAXIMO)
    ∧ (∀ q : ℚ, q < 0 → capNeg (Value.num q) = Value.num 0)
    ∧ (∀ q : ℚ, q > UMBRAL_GASTO_MAXIMO →
        capMax UMBRAL_GASTO_MAXIMO (Value.num q) = Value.num UMBRAL_GASTO_MAXIMO)
    ∧ (∀ q : ℚ, q > UMBRAL_ENVIOS_MAXIMO →
        capMax UMBRAL_ENVIOS_MAXIMO (Value.num q) = Value.num UMBRAL_ENVIOS_MAXIMO) := by
  refine ⟨fun t ha q hq => mem_colVals_corregido_spend ha q hq,
    fun t ha q hq => mem_colVals_corregido_ship ha q hq,
    fun q hq => by simp [capNeg, if_pos hq],
    fun q hq => by simp [capMax, if_pos hq],
    fun q hq => by simp [capMax, if_pos hq]⟩

theorem corregir_outliers_cotas_witness :
    (0 ≤ (0 : ℚ) ∧ (0 : ℚ) ≤ UMBRAL_GASTO_MAXIMO)
    ∧ (500 : ℚ) ≤ UMBRAL_ENVIOS_MAXIMO :=
  ⟨corregir_outliers_cotas.1
      (Table.mk ["monthly_spend", "total_shipments"] [[Value.num (-50), Value.num 1000]])
      (by decide) 0 (by decide),
   corregir_outliers_cotas.2.1
      (Table.mk ["monthly_spend", "total_shipments"] [[Value.num (-50), Value.num 1000]])
      (by decide) 500 (by decide)⟩

-- ===========================================================================
-- Claim C2: bin-boundary convention of the categorical features
-- ===========================================================================

theorem pdCut_cuatro_ne_na (e0 e1 e2 e3 : ℚ) (top : Edge)
    (l0 l1 l2 l3 : String) (v : ℚ) (h0 : e0 < v) (htop : leEdge v top = true) :
    pdCut v [Edge.fin e0, Edge.fin e1, Edge.fin e2, Edge.fin e3, top]
      [l0, l1, l2, l3] ≠ Value.na := by
  simp only [pdCut, gtEdge, leEdge]
  rcases le_or_lt v e1 with h1 | h1
  · rw [if_pos (by simp [h0, h1])]
    simp
  · rw [if_neg (by simp [not_le.mpr h1])]
    rcases le_or_lt v e2 with h2 | h2
    · rw [if_pos (by simp [h1, h2])]
      simp
    · rw [if_neg (by simp [not_le.mpr h2])]
      rcases le_or_lt v e3 with h3 | h3
      · rw [if_pos (by simp [h2, h3])]
        simp
      · rw [if_neg (by simp [not_le.mpr h3])]
        cases top with
        | fin q =>
          rw [if_pos (by simp only [leEdge] at htop; simp [h3, htop])]
          simp
        | inf => rw [if_pos (by simp [h3])]; simp

/-- Claim C2 (amended): all seven derived categorical features bin with
right-closed intervals, so a value exactly on an interior bin boundary
takes the lower bin's label and every value strictly above the leftmost
edge (and within the top edge) receives a label; but, against the claim
as stated, a value exactly equal to the leftmost edge receives no label
at all -- except under the risk bins, whose leftmost edge -1 lies below
every attainable score, so all scores 0..6 are labelled. -/
theorem pdCut_frontera_convencion :
    (pdCut 500 BINS_GASTO_MENSUAL ETIQUETAS_GASTO = Value.str "Bajo"
      ∧ pdCut 1500 BINS_GASTO_MENSUAL ETIQUETAS_GASTO = Value.str "Medio"
      ∧ pdCut 5000 BINS_GASTO_MENSUAL ETIQUETAS_GASTO = Value.str "Alto")
    ∧ (pdCut 30 BINS_RECENCIA ETIQUETAS_RECENCIA = Value.str "Muy_Reciente"
      ∧ pdCut 90 BINS_RECENCIA ETIQUETAS_RECENCIA = Value.str "Reciente"
      ∧ pdCut 180 BINS_RECENCIA ETIQUETAS_RECENCIA = Value.str "Inactivo")
    ∧ (pdCut 180 BINS_ANTIGUEDAD ETIQUETAS_ANTIGUEDAD = Value.str "Nuevo"
      ∧ pdCut 365 BINS_ANTIGUEDAD ETIQUETAS_ANTIGUEDAD = Value.str "Establecido"
      ∧ pdCut 730 BINS_ANTIGUEDAD ETIQUETAS_ANTIGUEDAD = Value.str "Veterano")
    ∧ (pdCut 10 BINS_FRECUENCIA_ENVIOS ETIQUETAS_FRECUENCIA = Value.str "Ocasional"
      ∧ pdCut 30 BINS_FRECUENCIA_ENVIOS ETIQUETAS_FRECUENCIA = Value.str "Regular"
      ∧ pdCut 100 BINS_FRECUENCIA_ENVIOS ETIQUETAS_FRECUENCIA = Value.str "Frecuente")
    ∧ (pdCut 25 BINS_ENGAGEMENT ETIQUETAS_ENGAGEMENT = Value.str "Bajo"
      ∧ pdCut 50 BINS_ENGAGEMENT ETIQUETAS_ENGAGEMENT = Value.str "Medio"
      ∧ pdCut 75 BINS_ENGAGEMENT ETIQUETAS_ENGAGEMENT = Value.str "Alto")
    ∧ (pdCut 50 BINS_TICKET ETIQUETAS_TICKET = Value.str "Bajo"
      ∧ pdCut 100 BINS_TICKET ETIQUETAS_TICKET = Value.str "Medio"
      ∧ pdCut 200 BINS_TICKET ETIQUETAS_TICKET = Value.str "Alto")
    ∧ (pdCut 0 BINS_RIESGO ETIQUETAS_RIESGO = Value.str "Bajo"
      ∧ pdCut 2 BINS_RIESGO ETIQUETAS_RIESGO = Value.str "Medio"
      ∧ pdCut 4 BINS_RIESGO ETIQUETAS_RIESGO = Value.str "Alto")
    ∧ (∀ v : ℚ, 0 < v → pdCut v BINS_GASTO_MENSUAL ETIQUETAS_GASTO ≠ Value.na)
    ∧ (∀ v : ℚ, 0 < v → pdCut v BINS_RECENCIA ETIQUETAS_RECENCIA ≠ Value.na)
    ∧ (∀ v : ℚ, 0 < v → pdCut v BINS_ANTIGUEDAD ETIQUETAS_ANTIGUEDAD ≠ Value.na)
    ∧ (∀ v : ℚ, 0 < v → pdCut v BINS_FRECUENCIA_ENVIOS ETIQUETAS_FRECUENCIA ≠ Value.na)
    ∧ (∀ v : ℚ, 0 < v → v ≤ 100 →
        pdCut v BINS_ENGAGEMENT ETIQUETAS_ENGAGEMENT ≠ Value.na)
    ∧ (∀ v : ℚ, 0 < v → pdCut v BINS_TICKET ETIQUETAS_TICKET ≠ Value.na)
    ∧ pdCut 0 BINS_GASTO_MENSUAL ETIQUETAS_GASTO = Value.na
    ∧ (∀ v : ℚ, 0 ≤ v → v ≤ 6 → pdCut v BINS_RIESGO ETIQUETAS_RIESGO ≠ Value.na) := by
  refine ⟨by decide, by decide, by decide, by decide, by decide, by decide, by decide,
    ?_, ?_, ?_, ?_, ?_, ?_, by decide, ?_⟩
  · exact fun v hv => pdCut_cuatro_ne_na 0 500 1500 5000 Edge.inf _ _ _ _ v hv rfl
  · exact fun v hv => pdCut_cuatro_ne_na 0 30 90 180 Edge.inf _ _ _ _ v hv rfl
  · exact fun v hv => pdCut_cuatro_ne_na 0 180 365 730 Edge.inf _ _ _ _ v hv rfl
  · exact fun v hv => pdCut_cuatro_ne_na 0 10 30 100 Edge.inf _ _ _ _ v hv rfl
  · exact fun v hv h100 => pdCut_cuatro_ne_na 0 25 50 75 (Edge.fin 100) _ _ _ _ v hv
      (by simp [leEdge, h100])
  · exact fun v hv => pdCut_cuatro_ne_na 0 50 100 200 Edge.inf _ _ _ _ v hv rfl
  · exact fun v hv h6 => pdCut_cuatro_ne_na (-1) 0 2 4 (Edge.fin 6) _ _ _ _ v
      (by linarith) (by simp [leEdge, h6])

/-- Claim C2, counterexample to the claim as stated: a value exactly
equal to the leftmost bin edge (a monthly spend of 0, a recency of 0
days, an engagement score of 0) is in range yet receives no label --
pd.cut leaves it unbinned (missing). -/
theorem pdCut_borde_izquierdo_contraejemplo :
    cortarV BINS_GASTO_MENSUAL ETIQUETAS_GASTO (Value.num 0) = Value.na
    ∧ cortarV BINS_RECENCIA ETIQUETAS_RECENCIA (Value.num 0) = Value.na
    ∧ cortarV BINS_ENGAGEMENT ETIQUETAS_ENGAGEMENT (Value.num 0) = Value.na := by
  decide

theorem pdCut_frontera_convencion_witness :
    pdCut 250 BINS_GASTO_MENSUAL ETIQUETAS_GASTO ≠ Value.na
    ∧ pdCut 40 BINS_ENGAGEMENT ETIQUETAS_ENGAGEMENT ≠ Value.na
    ∧ pdCut 3 BINS_RIESGO ETIQUETAS_RIESGO ≠ Value.na :=
  ⟨pdCut_frontera_convencion.2.2.2.2.2.2.2.1 250 (by norm_num),
   pdCut_frontera_convencion.2.2.2.2.2.2.2.2.2.2.2.1 40 (by norm_num) (by norm_num),
   pdCut_frontera_convencion.2.2.2.2.2.2.2.2.2.2.2.2.2.2 3 (by norm_num) (by norm_num)⟩

-- ===========================================================================
-- Claim C1: risk score 3 and its tier
-- ===========================================================================

/-- Claim C1 (amended): a record whose only risk flag is inactivity
(recency beyond the 180-day window, engagement at least 30, tenure at
least 180 days so it is not new-inactive) gets score_riesgo_churn = 3,
and under the fixed boundaries (-1,0,2,4,6] that score falls in the
interval (2,4], the THIRD tier 'Alto' -- not the second tier 'Medio'
stated by the claim. -/
theorem crear_features_riesgo_solo_inactividad (rec eng ant : ℚ)
    (hrec : rec > VENTANA_RECENCIA_DIAS) (heng : 30 ≤ eng) (hant : 180 ≤ ant) :
    crear_features_riesgo_churn
        (Table.mk ["recencia_dias", "engagement_score", "antiguedad_dias"]
          [[Value.num rec, Value.num eng, Value.num ant]])
      = Table.mk ["recencia_dias", "engagement_score", "antiguedad_dias",
          "riesgo_inactividad", "riesgo_bajo_engagement", "riesgo_nuevo_inactivo",
          "score_riesgo_churn", "nivel_riesgo"]
          [[Value.num rec, Value.num eng, Value.num ant,
            Value.num 1, Value.num 0, Value.num 0, Value.num 3, Value.str "Alto"]] := by
  have h1 : flagInactividad (Value.num rec) = Value.num 1 := by
    rw [flagInactividad, if_pos hrec]
  have h2 : flagBajoEngagement (Value.num eng) = Value.num 0 := by
    rw [flagBajoEngagement, if_neg (by linarith)]
  have h3 : flagNuevoInactivo (Value.num ant) (Value.num rec) = Value.num 0 := by
    rw [flagNuevoInactivo, if_neg (by rintro ⟨ha, -⟩; linarith)]
  simp [crear_features_riesgo_churn, mapCol, setColVals, colVals, colIdx, getVal,
    h1, h2, h3, scoreRiesgoV, cortarV]
  norm_num [pdCut, gtEdge, leEdge, BINS_RIESGO, ETIQUETAS_RIESGO]

/-- Claim C1, counterexample to the claim as stated: the record
(recency 200 > 180, engagement 40 ≥ 30, tenure 300 ≥ 180) carries risk
score 3 as claimed, but its nivel_riesgo is 'Alto', the third tier, not
the second tier 'Medio'. -/
theorem crear_features_riesgo_contraejemplo :
    colVals (crear_features_riesgo_churn
        (Table.mk ["recencia_dias", "engagement_score", "antiguedad_dias"]
          [[Value.num 200, Value.num 40, Value.num 300]])) "score_riesgo_churn"
      = [Value.num 3]
    ∧ colVals (crear_features_riesgo_churn
        (Table.mk ["recencia_dias", "engagement_score", "antiguedad_dias"]
          [[Value.num 200, Value.num 40, Value.num 300]])) "nivel_riesgo"
      = [Value.str "Alto"]
    ∧ Value.str "Alto" ≠ Value.str "Medio" := by
  refine ⟨?_, ?_, by simp⟩ <;>
  · simp [crear_features_riesgo_churn, mapCol, setColVals, colVals, colIdx, getVal,
      flagInactividad, flagBajoEngagement, flagNuevoInactivo, scoreRiesgoV, cortarV,
      VENTANA_RECENCIA_DIAS]
    norm_num [pdCut, gtEdge, leEdge, BINS_RIESGO, ETIQUETAS_RIESGO]

theorem crear_features_riesgo_solo_inactividad_witness :
    crear_features_riesgo_churn
        (Table.mk ["recencia_dias", "engagement_score", "antiguedad_dias"]
          [[Value.num 200, Value.num 40, Value.num 300]])
      = Table.mk ["recencia_dias", "engagement_score", "antiguedad_dias",
          "riesgo_inactividad", "riesgo_bajo_engagement", "riesgo_nuevo_inactivo",
          "score_riesgo_churn", "nivel_riesgo"]
          [[Value.num 200, Value.num 40, Value.num 300,
            Value.num 1, Value.num 0, Value.num 0, Value.num 3, Value.str "Alto"]] :=
  crear_features_riesgo_solo_inactividad 200 40 300
    (by norm_num [VENTANA_RECENCIA_DIAS]) (by norm_num) (by norm_num)

-- ===========================================================================
-- Claim C4: which stages mutate the caller's snapshot
-- ===========================================================================

theorem cols_length_le_setColVals (t : Table) (c : String) (vs : List Value) :
    t.cols.length ≤ (setColVals t c vs).cols.length := by
  unfold setColVals
  split
  · exact le_refl _
  · simp

/-- Claim C4 (amended): only hashear_datos_sensibles is pure from the
caller's perspective (it copies the frame first); the other stages write
columns on the very frame the caller passed in.  In particular
calcular_recencia always hands the caller a table extended with the
recencia_dias column, never the snapshot it was given. -/
theorem etapas_vista_llamador :
    (∀ (t : Table) (cs : List String) (suf : String),
      hashear_datos_sensibles_llamador t cs suf = t)
    ∧ (∀ t : Table, "recencia_dias" ∉ t.cols →
        (∃ d, colMaxDate t "last_purchase_date" = some d) →
        calcular_recencia_llamador t "last_purchase_date" none ≠ t) := by
  refine ⟨fun t cs suf => rfl, fun t h _ heq => ?_⟩
  have hcols1 :
      (setColVals t "recencia_dias"
        ((colVals t "last_purchase_date").map
          (restarDias ((Option.orElse none
            (fun _ => colMaxDate t "last_purchase_date")).getD 0)))).cols
      = t.cols ++ ["recencia_dias"] := by
    rw [setColVals, if_neg h]
  have hlen : t.cols.length + 1 ≤ (calcular_recencia_llamador t "last_purchase_date" none).cols.length := by
    unfold calcular_recencia_llamador calcular_recencia
    refine le_trans ?_ (cols_length_le_setColVals _ _ _)
    rw [hcols1]
    simp
  rw [heq] at hlen
  omega

theorem etapas_vista_llamador_witness :
    hashear_datos_sensibles_llamador
        (Table.mk ["customer_id", "email"] [[Value.str "C1", Value.str "a@b.c"]])
        COLUMNAS_SENSIBLES "_hash"
      = Table.mk ["customer_id", "email"] [[Value.str "C1", Value.str "a@b.c"]]
    ∧ calcular_recencia_llamador
        (Table.mk ["last_purchase_date"] [[Value.date 10]])
        "last_purchase_date" none
      ≠ Table.mk ["last_purchase_date"] [[Value.date 10]] :=
  ⟨etapas_vista_llamador.1 _ COLUMNAS_SENSIBLES "_hash",
   etapas_vista_llamador.2 _ (by decide) ⟨10, by decide⟩⟩

/-- Claim C4, counterexample to the claim as stated: calcular_recencia
returns the caller's own frame after assigning two new columns on it,
so the snapshot the caller passed in does not survive the call
unchanged. -/
theorem calcular_recencia_muta_contraejemplo :
    calcular_recencia_llamador
        (Table.mk ["last_purchase_date"] [[Value.date 10]])
        "last_purchase_date" none
      ≠ Table.mk ["last_purchase_date"] [[Value.date 10]] := by
  intro h
  have hc := congrArg Table.cols h
  have : (calcular_recencia_llamador
      (Table.mk ["last_purchase_date"] [[Value.date 10]])
      "last_purchase_date" none).cols
      = ["last_purchase_date", "recencia_dias", "categoria_recencia"] := rfl
  rw [this] at hc
  exact absurd hc (by decide)

-- ===========================================================================
-- Claim C3: ordering of the null strategies
-- ===========================================================================

theorem length_ffillVals (carry : Option Value) (vs : List Value) :
    (ffillVals carry vs).length = vs.length := by
  induction vs generalizing carry with
  | nil => rfl
  | cons v vs ih =>
    by_cases h : v = Value.na <;> simp [ffillVals, h, ih]

theorem length_rellenoDe (s : String) (vs : List Value) :
    (rellenoDe s vs).length = vs.length := by
  unfold rellenoDe
  split_ifs <;> simp [length_ffillVals]

theorem length_colVals (t : Table) (c : String) :
    (colVals t c).length = t.rows.length := by
  simp [colVals]

theorem aplicar_eq_relleno {e : String × String} (h : e.2 ≠ "eliminar")
    (t : Table) :
    aplicar_estrategia t e
      = if e.1 ∈ t.cols then
          (if countNa (colVals t e.1) = 0 then t
           else setColVals t e.1 (rellenoDe e.2 (colVals t e.1))) else t := by
  unfold aplicar_estrategia rellenoDe
  by_cases hm : e.1 ∈ t.cols
  · rw [if_pos hm, if_pos hm]
    by_cases hc : countNa (colVals t e.1) = 0
    · rw [if_pos hc, if_pos hc]
    · rw [if_neg hc, if_neg hc]
      by_cases h1 : e.2 = "MISSING"
      · rw [if_pos h1, if_pos h1]
      · rw [if_neg h1, if_neg h1]
        by_cases h2 : e.2 = "mediana"
        · rw [if_pos h2, if_pos h2]
        · rw [if_neg h2, if_neg h2]
          by_cases h3 : e.2 = "media"
          · rw [if_pos h3, if_pos h3]
          · rw [if_neg h3, if_neg h3]
            by_cases h4 : e.2 = "moda"
            · rw [if_pos h4, if_pos h4]
            · rw [if_neg h4, if_neg h4]
              by_cases h5 : e.2 = "ffill"
              · rw [if_pos h5, if_pos h5]
              · rw [if_neg h5, if_neg h5, if_neg h]
                exact (setColVals_colVals_self hm).symm
  · rw [if_neg hm, if_neg hm]

theorem cols_aplicar_fill {e : String × String} (h : e.2 ≠ "eliminar")
    (t : Table) : (aplicar_estrategia t e).cols = t.cols := by
  rw [aplicar_eq_relleno h]
  by_cases hm : e.1 ∈ t.cols
  · rw [if_pos hm]
    by_cases hc : countNa (colVals t e.1) = 0
    · rw [if_pos hc]
    · rw [if_neg hc, cols_setColVals_of_mem hm]
  · rw [if_neg hm]

theorem zipWith_set_comm {i1 i2 : ℕ} (hne : i1 ≠ i2) :
    ∀ (rows : List (List Value)) (u1 u2 : List Value),
    List.zipWith (fun r v => r.set i2 v)
        (List.zipWith (fun r v => r.set i1 v) rows u1) u2
      = List.zipWith (fun r v => r.set i1 v)
        (List.zipWith (fun r v => r.set i2 v) rows u2) u1 := by
  intro rows
  induction rows with
  | nil => intro u1 u2; simp
  | cons r rs ih =>
    intro u1 u2
    cases u1 with
    | nil => cases u2 <;> simp
    | cons a as =>
      cases u2 with
      | nil => simp
      | cons b bs => simp [ih, List.set_comm _ _ _ hne]

theorem setColVals_comm {t : Table} {c1 c2 : String} (h1 : c1 ∈ t.cols)
    (h2 : c2 ∈ t.cols) (hne : colIdx t c1 ≠ colIdx t c2)
    (u1 u2 : List Value) :
    setColVals (setColVals t c1 u1) c2 u2
      = setColVals (setColVals t c2 u2) c1 u1 := by
  have e1 : setColVals t c1 u1
      = Table.mk t.cols (t.rows.zipWith (fun r v => r.set (colIdx t c1) v) u1) := by
    rw [setColVals, if_pos h1]
  have e2 : setColVals t c2 u2
      = Table.mk t.cols (t.rows.zipWith (fun r v => r.set (colIdx t c2) v) u2) := by
    rw [setColVals, if_pos h2]
  rw [e1, e2]
  rw [setColVals, setColVals]
  rw [if_pos (show c2 ∈ t.cols from h2), if_pos (show c1 ∈ t.cols from h1)]
  show Table.mk t.cols _ = Table.mk t.cols _
  congr 1
  exact zipWith_set_comm hne t.rows u1 u2

theorem zipWith_congr_vals {α β : Type} (f g : α → β → Value)
    (l1 : List α) (l2 : List β) (h : ∀ a ∈ l1, ∀ b ∈ l2, f a b = g a b) :
    List.zipWith f l1 l2 = List.zipWith g l1 l2 := by
  induction l1 generalizing l2 with
  | nil => simp
  | cons a as ih =>
    cases l2 with
    | nil => simp
    | cons b bs =>
      simp only [List.zipWith]
      rw [h a (by simp) b (by simp), ih bs (fun x hx y hy => h x (by simp [hx]) y (by simp [hy]))]

theorem colVals_setColVals_ne {t : Table} {c1 c2 : String} (h1 : c1 ∈ t.cols)
    (hne : colIdx t c2 ≠ colIdx t c1) {u1 : List Value}
    (hl : u1.length = t.rows.length) :
    colVals (setColVals t c1 u1) c2 = colVals t c2 := by
  have e1 : setColVals t c1 u1
      = Table.mk t.cols (t.rows.zipWith (fun r v => r.set (colIdx t c1) v) u1) := by
    rw [setColVals, if_pos h1]
  rw [e1]
  show List.map (fun r => getVal r (colIdx t c2))
      (List.zipWith (fun r v => r.set (colIdx t c1) v) t.rows u1) = colVals t c2
  rw [List.map_zipWith]
  rw [zipWith_congr_vals (fun r v => getVal (r.set (colIdx t c1) v) (colIdx t c2))
    (fun r _ => getVal r (colIdx t c2)) _ _
    (fun r _ v _ => by
      show getVal (r.set (colIdx t c1) v) (colIdx t c2) = getVal r (colIdx t c2)
      exact getD_set_ne (fun hh => hne hh.symm) r v)]
  rw [zipWith_const_left _ _ _ (by omega)]
  rfl

theorem aplicar_fill_comm (e1 e2 : String × String) (h1 : e1.2 ≠ "eliminar")
    (h2 : e2.2 ≠ "eliminar") (hne : e1.1 ≠ e2.1) (t : Table) :
    aplicar_estrategia (aplicar_estrategia t e1) e2
      = aplicar_estrategia (aplicar_estrategia t e2) e1 := by
  by_cases m1 : e1.1 ∈ t.cols
  · by_cases m2 : e2.1 ∈ t.cols
    · have hidx12 : colIdx t e2.1 ≠ colIdx t e1.1 :=
        indexOf_ne_indexOf_of_mem m1 hne.symm
      have hidx21 : colIdx t e1.1 ≠ colIdx t e2.1 :=
        indexOf_ne_indexOf_of_mem m2 hne
      by_cases hc1 : countNa (colVals t e1.1) = 0
      · have eA1 : aplicar_estrategia t e1 = t := by
          rw [aplicar_eq_relleno h1, if_pos m1, if_pos hc1]
        rw [eA1]
        by_cases hc2 : countNa (colVals t e2.1) = 0
        · have eA2 : aplicar_estrategia t e2 = t := by
            rw [aplicar_eq_relleno h2, if_pos m2, if_pos hc2]
          rw [eA2]
          exact eA1.symm
        · have eA2 : aplicar_estrategia t e2
              = setColVals t e2.1 (rellenoDe e2.2 (colVals t e2.1)) := by
            rw [aplicar_eq_relleno h2, if_pos m2, if_neg hc2]
          rw [eA2]
          have hpres : colVals (setColVals t e2.1 (rellenoDe e2.2 (colVals t e2.1))) e1.1
              = colVals t e1.1 :=
            colVals_setColVals_ne m2 hidx21 (by rw [length_rellenoDe, length_colVals])
          rw [aplicar_eq_relleno h1,
            if_pos (by rw [cols_setColVals_of_mem m2]; exact m1), hpres, if_pos hc1]
      · have eA1 : aplicar_estrategia t e1
            = setColVals t e1.1 (rellenoDe e1.2 (colVals t e1.1)) := by
          rw [aplicar_eq_relleno h1, if_pos m1, if_neg hc1]
        by_cases hc2 : countNa (colVals t e2.1) = 0
        · have eA2 : aplicar_estrategia t e2 = t := by
            rw [aplicar_eq_relleno h2, if_pos m2, if_pos hc2]
          rw [eA1, eA2]
          have hpres : colVals (setColVals t e1.1 (rellenoDe e1.2 (colVals t e1.1))) e2.1
              = colVals t e2.1 :=
            colVals_setColVals_ne m1 hidx12 (by rw [length_rellenoDe, length_colVals])
          rw [aplicar_eq_relleno h2,
            if_pos (by rw [cols_setColVals_of_mem m1]; exact m2), hpres, if_pos hc2,
            ← eA1]
        · have eA2 : aplicar_estrategia t e2
              = setColVals t e2.1 (rellenoDe e2.2 (colVals t e2.1)) := by
            rw [aplicar_eq_relleno h2, if_pos m2, if_neg hc2]
          have hpres1 : colVals (setColVals t e1.1 (rellenoDe e1.2 (colVals t e1.1))) e2.1
              = colVals t e2.1 :=
            colVals_setColVals_ne m1 hidx12 (by rw [length_rellenoDe, length_colVals])
          have hpres2 : colVals (setColVals t e2.1 (rellenoDe e2.2 (colVals t e2.1))) e1.1
              = colVals t e1.1 :=
            colVals_setColVals_ne m2 hidx21 (by rw [length_rellenoDe, length_colVals])
          rw [eA1, eA2]
          rw [aplicar_eq_relleno h2,
            if_pos (by rw [cols_setColVals_of_mem m1]; exact m2), hpres1, if_neg hc2]
          rw [aplicar_eq_relleno h1,
            if_pos (by rw [cols_setColVals_of_mem m2]; exact m1), hpres2, if_neg hc1]
          have hcid1 : colIdx (setColVals t e1.1 (rellenoDe e1.2 (colVals t e1.1))) e2.1
              = colIdx t e2.1 := by
            unfold colIdx
            rw [cols_setColVals_of_mem m1]
          have hcid2 : colIdx (setColVals t e2.1 (rellenoDe e2.2 (colVals t e2.1))) e1.1
              = colIdx t e1.1 := by
            unfold colIdx
            rw [cols_setColVals_of_mem m2]
          exact setColVals_comm m1 m2 hidx21 _ _
    · have eA2 : aplicar_estrategia t e2 = t := by
        rw [aplicar_eq_relleno h2, if_neg m2]
      rw [eA2]
      have : e2.1 ∉ (aplicar_estrategia t e1).cols := by
        rw [cols_aplicar_fill h1]; exact m2
      rw [aplicar_eq_relleno h2, if_neg this]
  · have eA1 : aplicar_estrategia t e1 = t := by
      rw [aplicar_eq_relleno h1, if_neg m1]
    rw [eA1]
    have : e1.1 ∉ (aplicar_estrategia t e2).cols := by
      rw [cols_aplicar_fill h2]; exact m1
    rw [aplicar_eq_relleno h1, if_neg this]

theorem fill_entries_comm :
    ∀ a ∈ ENTRADAS_RELLENO, ∀ b ∈ ENTRADAS_RELLENO, ∀ t : Table,
    aplicar_estrategia (aplicar_estrategia t a) b
      = aplicar_estrategia (aplicar_estrategia t b) a := by
  intro a ha b hb t
  simp only [ENTRADAS_RELLENO, List.mem_cons, List.not_mem_nil, or_false] at ha hb
  rcases ha with rfl | rfl | rfl | rfl <;> rcases hb with rfl | rfl | rfl | rfl <;>
    first
      | rfl
      | exact aplicar_fill_comm _ _ (by decide) (by decide) (by decide) t

/-- Claim C3 (amended): the four fill strategies (constant fill for
phone, median fill for monthly_spend and total_shipments, forward fill
for last_purchase_date) touch only their own columns and may be applied
in any order, provided row removal for churn_label stays last; every
such permutation produces exactly the configured pipeline's output. -/
theorem manejar_valores_nulos_permutacion (t : Table)
    (l : List (String × String)) (hp : l.Perm ENTRADAS_RELLENO) :
    manejar_valores_nulos t (l ++ [("churn_label", "eliminar")])
      = manejar_valores_nulos t ESTRATEGIA_NULOS := by
  unfold manejar_valores_nulos
  rw [List.foldl_append]
  have hl : List.foldl aplicar_estrategia t l
      = List.foldl aplicar_estrategia t ENTRADAS_RELLENO :=
    hp.foldl_eq'
      (fun x hx y hy z =>
        fill_entries_comm x (hp.subset hx) y (hp.subset hy) z) t
  rw [hl, ← List.foldl_append]
  rfl

/-- Claim C3, counterexample to the claim as stated: moving the
row-removal strategy for churn_label ahead of the median fill removes a
row before the median is computed and changes the filled value, so the
output depends on the order of the per-field strategies. -/
theorem manejar_valores_nulos_orden_contraejemplo :
    List.Perm
        [("churn_label", "eliminar"), ("phone", "MISSING"),
         ("monthly_spend", "mediana"), ("total_shipments", "mediana"),
         ("last_purchase_date", "ffill")]
        ESTRATEGIA_NULOS
    ∧ manejar_valores_nulos
        (Table.mk ["monthly_spend", "churn_label"]
          [[Value.na, Value.num 0], [Value.num 100, Value.num 0],
           [Value.num 200, Value.num 0], [Value.num 300, Value.num 0],
           [Value.num 400, Value.na], [Value.num 500, Value.na]])
        [("churn_label", "eliminar"), ("phone", "MISSING"),
         ("monthly_spend", "mediana"), ("total_shipments", "mediana"),
         ("last_purchase_date", "ffill")]
      ≠ manejar_valores_nulos
        (Table.mk ["monthly_spend", "churn_label"]
          [[Value.na, Value.num 0], [Value.num 100, Value.num 0],
           [Value.num 200, Value.num 0], [Value.num 300, Value.num 0],
           [Value.num 400, Value.na], [Value.num 500, Value.na]])
        ESTRATEGIA_NULOS := by
  constructor
  · decide
  · decide

theorem manejar_valores_nulos_permutacion_witness :
    manejar_valores_nulos
        (Table.mk ["monthly_spend", "churn_label"]
          [[Value.na, Value.num 0], [Value.num 100, Value.num 0],
           [Value.num 200, Value.na]])
        ([("last_purchase_date", "ffill"), ("total_shipments", "mediana"),
          ("monthly_spend", "mediana"), ("phone", "MISSING")]
          ++ [("churn_label", "eliminar")])
      = manejar_valores_nulos
        (Table.mk ["monthly_spend", "churn_label"]
          [[Value.na, Value.num 0], [Value.num 100, Value.num 0],
           [Value.num 200, Value.na]])
        ESTRATEGIA_NULOS :=
  manejar_valores_nulos_permutacion _ _ (by decide)

-- ===========================================================================
-- Claim C6: deduplication keeps one most-recent row per key
-- ===========================================================================

theorem char_eq_of_toNat_eq {a b : Char} (h : a.toNat = b.toNat) : a = b := by
  have h1 : Char.ofNat a.toNat = Char.ofNat b.toNat := by rw [h]
  rwa [Char.ofNat_toNat, Char.ofNat_toNat] at h1

theorem lexLEchars_total : ∀ a b : List Char,
    lexLEchars a b = true ∨ lexLEchars b a = true := by
  intro a
  induction a with
  | nil => intro b; left; rfl
  | cons c cs ih =>
    intro b
    cases b with
    | nil => right; rfl
    | cons d ds =>
      simp only [lexLEchars]
      rcases Nat.lt_trichotomy c.toNat d.toNat with h | h | h
      · left; rw [if_pos h]
      · rw [if_neg (by omega), if_neg (by omega), if_neg (by omega), if_neg (by omega)]
        exact ih ds
      · right; rw [if_pos h]

theorem lexLEchars_antisymm : ∀ {a b : List Char},
    lexLEchars a b = true → lexLEchars b a = true → a = b := by
  intro a
  induction a with
  | nil =>
    intro b _ h2
    cases b with
    | nil => rfl
    | cons d ds => simp [lexLEchars] at h2
  | cons c cs ih =>
    intro b h1 h2
    cases b with
    | nil => simp [lexLEchars] at h1
    | cons d ds =>
      simp only [lexLEchars] at h1 h2
      rcases Nat.lt_trichotomy c.toNat d.toNat with h | h | h
      · rw [if_neg (by omega), if_pos h] at h2
        exact absurd h2 (by simp)
      · rw [if_neg (by omega), if_neg (by omega)] at h1 h2
        rw [char_eq_of_toNat_eq h, ih h1 h2]
      · rw [if_neg (by omega), if_pos h] at h1
        exact absurd h1 (by simp)

theorem lexLEchars_trans : ∀ {a b c : List Char},
    lexLEchars a b = true → lexLEchars b c = true → lexLEchars a c = true := by
  intro a
  induction a with
  | nil => intro b c _ _; rfl
  | cons x xs ih =>
    intro b c h1 h2
    cases b with
    | nil => simp [lexLEchars] at h1
    | cons y ys =>
      cases c with
      | nil => simp [lexLEchars] at h2
      | cons z zs =>
        simp only [lexLEchars] at h1 h2 ⊢
        rcases Nat.lt_trichotomy x.toNat y.toNat with hxy | hxy | hxy <;>
          rcases Nat.lt_trichotomy y.toNat z.toNat with hyz | hyz | hyz
        · rw [if_pos (by omega)]
        · rw [if_pos (by omega)]
        · rw [if_neg (by omega), if_pos hyz] at h2
          exact absurd h2 (by simp)
        · rw [if_pos (by omega)]
        · rw [if_neg (by omega), if_neg (by omega)] at h1 h2 ⊢
          exact ih h1 h2
        · rw [if_neg (by omega), if_pos hyz] at h2
          exact absurd h2 (by simp)
        · rw [if_neg (by omega), if_pos hxy] at h1
          exact absurd h1 (by simp)
        · rw [if_neg (by omega), if_pos hxy] at h1
          exact absurd h1 (by simp)
        · rw [if_neg (by omega), if_pos hxy] at h1
          exact absurd h1 (by simp)

theorem valLEb_total (a b : Value) : valLEb a b = true ∨ valLEb b a = true := by
  cases a <;> cases b <;> simp [valLEb, strLEb] <;>
    first
      | exact le_total _ _
      | exact lexLEchars_total _ _

theorem valLEb_antisymm : ∀ {a b : Value},
    valLEb a b = true → valLEb b a = true → a = b := by
  intro a b h1 h2
  cases a <;> cases b <;> simp_all [valLEb, strLEb] <;>
    first
      | exact le_antisymm h1 h2
      | exact String.ext (lexLEchars_antisymm h1 h2)

theorem valLEb_trans : ∀ {a b c : Value},
    valLEb a b = true → valLEb b c = true → valLEb a c = true := by
  intro a b c h1 h2
  cases a <;> cases b <;> cases c <;> simp_all [valLEb, strLEb] <;>
    first
      | exact le_trans h1 h2
      | exact lexLEchars_trans h1 h2

theorem optDateGEb_refl (x : Option ℤ) : optDateGEb x x = true := by
  cases x <;> simp [optDateGEb]

theorem optDateGEb_total (x y : Option ℤ) :
    optDateGEb x y = true ∨ optDateGEb y x = true := by
  cases x <;> cases y <;> simp [optDateGEb] <;> exact le_total _ _

theorem optDateGEb_trans {x y z : Option ℤ} (h1 : optDateGEb x y = true)
    (h2 : optDateGEb y z = true) : optDateGEb x z = true := by
  cases x <;> cases y <;> cases z <;> simp_all [optDateGEb] <;> omega

theorem rowOrdb_total (i j : ℕ) (r1 r2 : List Value) :
    rowOrdb i j r1 r2 = true ∨ rowOrdb i j r2 r1 = true := by
  unfold rowOrdb
  by_cases h : getVal r1 i = getVal r2 i
  · rw [if_pos h, if_pos h.symm]
    exact optDateGEb_total _ _
  · rw [if_neg h, if_neg (Ne.symm h)]
    exact valLEb_total _ _

theorem rowOrdb_trans (i j : ℕ) {r1 r2 r3 : List Value}
    (h12 : rowOrdb i j r1 r2 = true) (h23 : rowOrdb i j r2 r3 = true) :
    rowOrdb i j r1 r3 = true := by
  unfold rowOrdb at h12 h23 ⊢
  by_cases e12 : getVal r1 i = getVal r2 i
  · by_cases e23 : getVal r2 i = getVal r3 i
    · rw [if_pos (e12.trans e23)]
      rw [if_pos e12] at h12
      rw [if_pos e23] at h23
      exact optDateGEb_trans h12 h23
    · have e13 : ¬ getVal r1 i = getVal r3 i := by rw [e12]; exact e23
      rw [if_neg e13, e12]
      rw [if_neg e23] at h23
      exact h23
  · by_cases e23 : getVal r2 i = getVal r3 i
    · have e13 : ¬ getVal r1 i = getVal r3 i := by rw [← e23]; exact e12
      rw [if_neg e13, ← e23]
      rw [if_neg e12] at h12
      exact h12
    · rw [if_neg e12] at h12
      rw [if_neg e23] at h23
      by_cases e13 : getVal r1 i = getVal r3 i
      · exfalso
        apply e23
        exact valLEb_antisymm h23 (by rw [← e13]; exact h12)
      · rw [if_neg e13]
        exact valLEb_trans h12 h23

theorem rowOrdb_keys_eq {i j : ℕ} {r1 r2 : List Value}
    (h : getVal r1 i = getVal r2 i) (hord : rowOrdb i j r1 r2 = true) :
    optDateGEb (toDia (parseDateV (getVal r1 j)))
      (toDia (parseDateV (getVal r2 j))) = true := by
  unfold rowOrdb at hord
  rwa [if_pos h] at hord

theorem mem_dedupRowsAux {r : List Value} :
    ∀ (seen rs : List (List Value)),
    r ∈ dedupRowsAux seen rs ↔ (r ∈ rs ∧ r ∉ seen) := by
  intro seen rs
  induction rs generalizing seen with
  | nil => simp [dedupRowsAux]
  | cons x xs ih =>
    by_cases hx : x ∈ seen
    · rw [dedupRowsAux, if_pos hx, ih]
      constructor
      · rintro ⟨h1, h2⟩
        exact ⟨by simp [h1], h2⟩
      · rintro ⟨h1, h2⟩
        rcases List.mem_cons.mp h1 with rfl | h1
        · exact absurd hx h2
        · exact ⟨h1, h2⟩
    · rw [dedupRowsAux, if_neg hx]
      constructor
      · intro h
        rcases List.mem_cons.mp h with rfl | h
        · exact ⟨by simp, hx⟩
        · obtain ⟨h1, h2⟩ := (ih (x :: seen)).mp h
          exact ⟨by simp [h1], fun hc => h2 (by simp [hc])⟩
      · rintro ⟨h1, h2⟩
        rcases List.mem_cons.mp h1 with rfl | h1
        · exact List.mem_cons_self _ _
        · by_cases hrx : r = x
          · subst hrx; exact List.mem_cons_self _ _
          · exact List.mem_cons_of_mem _
              ((ih (x :: seen)).mpr ⟨h1, by simp [hrx, h2]⟩)

theorem mem_dedupRows {r : List Value} {rs : List (List Value)} :
    r ∈ dedupRows rs ↔ r ∈ rs := by
  rw [dedupRows, mem_dedupRowsAux]
  simp

theorem dedupRowsAux_eq_self :
    ∀ (seen rs : List (List Value)), rs.Nodup → (∀ r ∈ rs, r ∉ seen) →
    dedupRowsAux seen rs = rs := by
  intro seen rs
  induction rs generalizing seen with
  | nil => intro _ _; rfl
  | cons x xs ih =>
    intro hnd hdisj
    rw [dedupRowsAux, if_neg (hdisj x (by simp))]
    rw [ih (x :: seen) (List.Nodup.of_cons hnd)]
    intro r hr
    simp only [List.mem_cons, not_or]
    exact ⟨fun hrx => (List.nodup_cons.mp hnd).1 (hrx ▸ hr),
      hdisj r (by simp [hr])⟩

theorem dedupRows_eq_self {rs : List (List Value)} (h : rs.Nodup) :
    dedupRows rs = rs :=
  dedupRowsAux_eq_self [] rs h (by simp)

theorem dropDupKeysAux_subset {i : ℕ} {r : List Value} :
    ∀ (seen : List Value) (rs : List (List Value)),
    r ∈ dropDupKeysAux i seen rs → r ∈ rs := by
  intro seen rs
  induction rs generalizing seen with
  | nil => intro h; exact absurd h (by simp [dropDupKeysAux])
  | cons x xs ih =>
    intro h
    rw [dropDupKeysAux] at h
    by_cases hx : getVal x i ∈ seen
    · rw [if_pos hx] at h
      exact List.mem_cons_of_mem _ (ih _ h)
    · rw [if_neg hx] at h
      rcases List.mem_cons.mp h with rfl | h
      · exact List.mem_cons_self _ _
      · exact List.mem_cons_of_mem _ (ih _ h)

theorem dropDupKeysAux_key_not_seen {i : ℕ} {r : List Value} :
    ∀ (seen : List Value) (rs : List (List Value)),
    r ∈ dropDupKeysAux i seen rs → getVal r i ∉ seen := by
  intro seen rs
  induction rs generalizing seen with
  | nil => intro h; exact absurd h (by simp [dropDupKeysAux])
  | cons x xs ih =>
    intro h
    rw [dropDupKeysAux] at h
    by_cases hx : getVal x i ∈ seen
    · rw [if_pos hx] at h
      exact ih _ h
    · rw [if_neg hx] at h
      rcases List.mem_cons.mp h with rfl | h
      · exact hx
      · intro hc
        exact ih _ h (by simp [hc])

theorem dropDupKeysAux_keys_nodup (i : ℕ) :
    ∀ (seen : List Value) (rs : List (List Value)),
    ((dropDupKeysAux i seen rs).map (fun r => getVal r i)).Nodup := by
  intro seen rs
  induction rs generalizing seen with
  | nil => simp [dropDupKeysAux]
  | cons x xs ih =>
    rw [dropDupKeysAux]
    by_cases hx : getVal x i ∈ seen
    · rw [if_pos hx]
      exact ih seen
    · rw [if_neg hx]
      simp only [List.map_cons, List.nodup_cons]
      refine ⟨fun hc => ?_, ih _⟩
      obtain ⟨r, hr, hkey⟩ := List.mem_map.mp hc
      exact dropDupKeysAux_key_not_seen _ _ hr (by simp [hkey])

theorem dropDupKeysAux_mem_keys {i : ℕ} {k : Value} :
    ∀ (seen : List Value) (rs : List (List Value)),
    k ∈ rs.map (fun r => getVal r i) → k ∉ seen →
    k ∈ (dropDupKeysAux i seen rs).map (fun r => getVal r i) := by
  intro seen rs
  induction rs generalizing seen with
  | nil => simp
  | cons x xs ih =>
    intro hk hns
    rw [dropDupKeysAux]
    rcases List.mem_map.mp hk with ⟨r, hr, rfl⟩
    rcases List.mem_cons.mp hr with rfl | hr
    · rw [if_neg (by exact hns)]
      simp
    · by_cases hx : getVal x i ∈ seen
      · rw [if_pos hx]
        exact ih seen (List.mem_map_of_mem _ hr) hns
      · rw [if_neg hx]
        by_cases hkx : getVal r i = getVal x i
        · simp [hkx]
        · simp only [List.map_cons, List.mem_cons]
          right
          exact ih _ (List.mem_map_of_mem _ hr) (by simp [hns, hkx])

theorem dropDupKeysAux_dominates {i j : ℕ} :
    ∀ (seen : List Value) (rs : List (List Value)),
    rs.Pairwise (fun r1 r2 => rowOrdb i j r1 r2 = true) →
    ∀ r ∈ dropDupKeysAux i seen rs, ∀ r' ∈ rs, getVal r' i = getVal r i →
    optDateGEb (toDia (parseDateV (getVal r j)))
      (toDia (parseDateV (getVal r' j))) = true := by
  intro seen rs
  induction rs generalizing seen with
  | nil => simp
  | cons x xs ih =>
    intro hpw r hr r' hr' hkeys
    obtain ⟨hx_all, hpw_xs⟩ := List.pairwise_cons.mp hpw
    rw [dropDupKeysAux] at hr
    by_cases hx : getVal x i ∈ seen
    · rw [if_pos hx] at hr
      rcases List.mem_cons.mp hr' with rfl | hr'
      · exfalso
        exact dropDupKeysAux_key_not_seen _ _ hr (hkeys ▸ hx)
      · exact ih seen hpw_xs r hr r' hr' hkeys
    · rw [if_neg hx] at hr
      rcases List.mem_cons.mp hr with rfl | hr
      · rcases List.mem_cons.mp hr' with rfl | hr'
        · exact optDateGEb_refl _
        · exact rowOrdb_keys_eq hkeys.symm (hx_all r' hr')
      · rcases List.mem_cons.mp hr' with rfl | hr'
        · exfalso
          exact dropDupKeysAux_key_not_seen _ _ hr (by simp [hkeys])
        · exact ih _ hpw_xs r hr r' hr' hkeys

theorem detectar_nodup_eq {t : Table} {cid : String}
    (h : ((dedupRows t.rows).map
      (fun r => getVal r (List.indexOf cid t.cols))).Nodup) :
    detectar_duplicados t cid = Table.mk t.cols (dedupRows t.rows) := by
  simp only [detectar_duplicados]
  rw [if_pos h]

theorem detectar_sorted_eq {t : Table} {cid : String}
    (h : ¬ ((dedupRows t.rows).map
      (fun r => getVal r (List.indexOf cid t.cols))).Nodup)
    (hlpd : "last_purchase_date" ∈ t.cols) :
    detectar_duplicados t cid
      = Table.mk t.cols
          (dropDupKeys (List.indexOf cid t.cols)
            (List.insertionSort
              (fun r1 r2 => rowOrdb (List.indexOf cid t.cols)
                (List.indexOf "last_purchase_date" t.cols) r1 r2 = true)
              (dedupRows t.rows))) := by
  simp only [detectar_duplicados]
  rw [if_neg h, if_pos hlpd]

theorem detectar_nolpd_eq {t : Table} {cid : String}
    (h : ¬ ((dedupRows t.rows).map
      (fun r => getVal r (List.indexOf cid t.cols))).Nodup)
    (hlpd : "last_purchase_date" ∉ t.cols) :
    detectar_duplicados t cid
      = Table.mk t.cols
          (dropDupKeys (List.indexOf cid t.cols) (dedupRows t.rows)) := by
  simp only [detectar_duplicados]
  rw [if_neg h, if_neg hlpd]

theorem detectar_keys_nodup (t : Table) (cid : String) :
    ((detectar_duplicados t cid).rows.map
      (fun r => getVal r (List.indexOf cid t.cols))).Nodup := by
  by_cases h1 : ((dedupRows t.rows).map
      (fun r => getVal r (List.indexOf cid t.cols))).Nodup
  · rw [detectar_nodup_eq h1]
    exact h1
  · by_cases h2 : "last_purchase_date" ∈ t.cols
    · rw [detectar_sorted_eq h1 h2]
      exact dropDupKeysAux_keys_nodup _ [] _
    · rw [detectar_nolpd_eq h1 h2]
      exact dropDupKeysAux_keys_nodup _ [] _

theorem detectar_keys_mem (t : Table) (cid : String) {k : Value}
    (hk : k ∈ t.rows.map (fun r => getVal r (List.indexOf cid t.cols))) :
    k ∈ (detectar_duplicados t cid).rows.map
      (fun r => getVal r (List.indexOf cid t.cols)) := by
  obtain ⟨r, hr, rfl⟩ := List.mem_map.mp hk
  have hded : r ∈ dedupRows t.rows := mem_dedupRows.mpr hr
  by_cases h1 : ((dedupRows t.rows).map
      (fun r => getVal r (List.indexOf cid t.cols))).Nodup
  · rw [detectar_nodup_eq h1]
    exact List.mem_map_of_mem _ hded
  · by_cases h2 : "last_purchase_date" ∈ t.cols
    · rw [detectar_sorted_eq h1 h2]
      refine dropDupKeysAux_mem_keys [] _ ?_ (by simp)
      refine List.mem_map_of_mem _ ?_
      exact (List.perm_insertionSort _ _).symm.subset hded
    · rw [detectar_nolpd_eq h1 h2]
      exact dropDupKeysAux_mem_keys [] _ (List.mem_map_of_mem _ hded) (by simp)

/-- Claim C6: after detectar_duplicados, the key column is duplicate
free and every input key survives in exactly one row; when the
last_purchase_date column exists, the retained row of each key carries a
parsed purchase date at least as recent as every input row with that key
(unparseable dates rank lowest); and on the spec's concrete scenario the
2024-06-01 row of C1 survives with all its values. -/
theorem detectar_duplicados_unicidad_y_reciente :
    (∀ t : Table,
      ((detectar_duplicados t "customer_id").rows.map
        (fun r => getVal r (List.indexOf "customer_id" t.cols))).Nodup)
    ∧ (∀ (t : Table) (k : Value),
        k ∈ t.rows.map (fun r => getVal r (List.indexOf "customer_id" t.cols)) →
        ((detectar_duplicados t "customer_id").rows.map
          (fun r => getVal r (List.indexOf "customer_id" t.cols))).count k = 1)
    ∧ (∀ (t : Table) (r r' : List Value), "last_purchase_date" ∈ t.cols →
        r ∈ (detectar_duplicados t "customer_id").rows →
        r' ∈ t.rows →
        getVal r' (List.indexOf "customer_id" t.cols)
          = getVal r (List.indexOf "customer_id" t.cols) →
        optDateGEb
          (toDia (parseDateV (getVal r (List.indexOf "last_purchase_date" t.cols))))
          (toDia (parseDateV (getVal r' (List.indexOf "last_purchase_date" t.cols))))
          = true)
    ∧ detectar_duplicados
        (Table.mk ["customer_id", "last_purchase_date", "monthly_spend"]
          [[Value.str "C1", Value.str "2024-01-01", Value.num 100],
           [Value.str "C1", Value.str "2024-06-01", Value.num 200],
           [Value.str "C2", Value.str "2024-03-01", Value.num 300]])
        "customer_id"
      = Table.mk ["customer_id", "last_purchase_date", "monthly_spend"]
          [[Value.str "C1", Value.str "2024-06-01", Value.num 200],
           [Value.str "C2", Value.str "2024-03-01", Value.num 300]] := by
  refine ⟨fun t => detectar_keys_nodup t "customer_id",
    fun t k hk => List.count_eq_one_of_mem (detectar_keys_nodup t "customer_id")
      (detectar_keys_mem t "customer_id" hk),
    ?_, by decide⟩
  intro t r r' hlpd hr hr' hkeys
  by_cases h1 : ((dedupRows t.rows).map
      (fun r => getVal r (List.indexOf "customer_id" t.cols))).Nodup
  · rw [detectar_nodup_eq h1] at hr
    have hded : r' ∈ dedupRows t.rows := mem_dedupRows.mpr hr'
    have : r' = r :=
      List.inj_on_of_nodup_map h1 hded hr hkeys
    rw [this]
    exact optDateGEb_refl _
  · rw [detectar_sorted_eq h1 hlpd] at hr
    have hsorted : (List.insertionSort
        (fun r1 r2 => rowOrdb (List.indexOf "customer_id" t.cols)
          (List.indexOf "last_purchase_date" t.cols) r1 r2 = true)
        (dedupRows t.rows)).Pairwise
        (fun r1 r2 => rowOrdb (List.indexOf "customer_id" t.cols)
          (List.indexOf "last_purchase_date" t.cols) r1 r2 = true) := by
      haveI : IsTotal (List Value)
          (fun r1 r2 => rowOrdb (List.indexOf "customer_id" t.cols)
            (List.indexOf "last_purchase_date" t.cols) r1 r2 = true) :=
        ⟨rowOrdb_total _ _⟩
      haveI : IsTrans (List Value)
          (fun r1 r2 => rowOrdb (List.indexOf "customer_id" t.cols)
            (List.indexOf "last_purchase_date" t.cols) r1 r2 = true) :=
        ⟨fun _ _ _ => rowOrdb_trans _ _⟩
      exact List.sorted_insertionSort _ _
    have hr's : r' ∈ List.insertionSort
        (fun r1 r2 => rowOrdb (List.indexOf "customer_id" t.cols)
          (List.indexOf "last_purchase_date" t.cols) r1 r2 = true)
        (dedupRows t.rows) :=
      (List.perm_insertionSort _ _).symm.subset (mem_dedupRows.mpr hr')
    exact dropDupKeysAux_dominates [] _ hsorted r hr r' hr's hkeys

theorem detectar_duplicados_unicidad_witness :
    ((detectar_duplicados
        (Table.mk ["customer_id", "last_purchase_date", "monthly_spend"]
          [[Value.str "C1", Value.str "2024-01-01", Value.num 100],
           [Value.str "C1", Value.str "2024-06-01", Value.num 200],
           [Value.str "C2", Value.str "2024-03-01", Value.num 300]])
        "customer_id").rows.map
      (fun r => getVal r (List.indexOf "customer_id"
        ["customer_id", "last_purchase_date", "monthly_spend"]))).count
      (Value.str "C1") = 1 :=
  detectar_duplicados_unicidad_y_reciente.2.1
    (Table.mk ["customer_id", "last_purchase_date", "monthly_spend"]
      [[Value.str "C1", Value.str "2024-01-01", Value.num 100],
       [Value.str "C1", Value.str "2024-06-01", Value.num 200],
       [Value.str "C2", Value.str "2024-03-01", Value.num 300]])
    (Value.str "C1") (by decide)

-- ===========================================================================
-- Claim C7: the engagement score formula and its range
-- ===========================================================================

theorem foldl_max_spec :
    ∀ (vs : List Value) (acc : Option ℚ),
    (∀ q : ℚ, Value.num q ∈ vs →
      ∃ m, vs.foldl
        (fun acc v =>
          match v, acc with
          | Value.num q, none => some q
          | Value.num q, some m => some (max m q)
          | _, acc => acc) acc = some m ∧ q ≤ m)
    ∧ (∀ a : ℚ, acc = some a →
      ∃ m, vs.foldl
        (fun acc v =>
          match v, acc with
          | Value.num q, none => some q
          | Value.num q, some m => some (max m q)
          | _, acc => acc) acc = some m ∧ a ≤ m) := by
  intro vs
  induction vs with
  | nil =>
    intro acc
    exact ⟨fun q hq => absurd hq (by simp), fun a ha => ⟨a, by simp [ha]⟩⟩
  | cons v vs ih =>
    intro acc
    constructor
    · intro q hq
      rw [List.mem_cons] at hq
      rcases hq with rfl | hq
      · cases acc with
        | none =>
          obtain ⟨m, hm, hle⟩ := (ih (some q)).2 q rfl
          exact ⟨m, by simpa using hm, hle⟩
        | some a =>
          obtain ⟨m, hm, hle⟩ := (ih (some (max a q))).2 (max a q) rfl
          exact ⟨m, by simpa using hm, le_trans (le_max_right a q) hle⟩
      · cases v with
        | num p =>
          cases acc with
          | none =>
            obtain ⟨m, hm, hle⟩ := (ih (some p)).1 q hq
            exact ⟨m, by simpa using hm, hle⟩
          | some a =>
            obtain ⟨m, hm, hle⟩ := (ih (some (max a p))).1 q hq
            exact ⟨m, by simpa using hm, hle⟩
        | na =>
          obtain ⟨m, hm, hle⟩ := (ih acc).1 q hq
          exact ⟨m, by simpa using hm, hle⟩
        | str s =>
          obtain ⟨m, hm, hle⟩ := (ih acc).1 q hq
          exact ⟨m, by simpa using hm, hle⟩
        | date d =>
          obtain ⟨m, hm, hle⟩ := (ih acc).1 q hq
          exact ⟨m, by simpa using hm, hle⟩
    · intro a ha
      subst ha
      cases v with
      | num p =>
        obtain ⟨m, hm, hle⟩ := (ih (some (max a p))).2 (max a p) rfl
        exact ⟨m, by simpa using hm, le_trans (le_max_left a p) hle⟩
      | na =>
        obtain ⟨m, hm, hle⟩ := (ih (some a)).2 a rfl
        exact ⟨m, by simpa using hm, hle⟩
      | str s =>
        obtain ⟨m, hm, hle⟩ := (ih (some a)).2 a rfl
        exact ⟨m, by simpa using hm, hle⟩
      | date d =>
        obtain ⟨m, hm, hle⟩ := (ih (some a)).2 a rfl
        exact ⟨m, by simpa using hm, hle⟩

theorem colMaxQ_spec {t : Table} {c : String} {q : ℚ}
    (hq : Value.num q ∈ colVals t c) :
    ∃ m, colMaxQ t c = some m ∧ q ≤ m :=
  (foldl_max_spec (colVals t c) none).1 q hq

theorem setColVals_fresh_map {c : String} {cols : List String} (h : c ∉ cols)
    {α : Type} (f : α → List Value) (g : α → Value) (rs : List α) :
    setColVals (Table.mk cols (rs.map f)) c (rs.map g)
      = Table.mk (cols ++ [c]) (rs.map (fun x => f x ++ [g x])) := by
  rw [setColVals, if_neg h]
  show Table.mk (cols ++ [c]) _ = _
  congr 1
  rw [List.zipWith_map (fun r v => r ++ [v]) f g rs rs, List.zipWith_same]

theorem quitarColumna_map {c : String} {cols : List String} (h : c ∈ cols)
    {α : Type} (f : α → List Value) (rs : List α) :
    quitarColumna (Table.mk cols (rs.map f)) c
      = Table.mk (cols.eraseIdx (List.indexOf c cols))
          (rs.map (fun x => (f x).eraseIdx (List.indexOf c cols))) := by
  rw [quitarColumna, if_pos h]
  show Table.mk _ _ = _
  congr 1
  rw [List.map_map]
  rfl

theorem colMaxQ_congr {t t' : Table} {c c' : String}
    (h : colVals t c = colVals t' c') : colMaxQ t c = colMaxQ t' c' := by
  unfold colMaxQ
  rw [h]

theorem colVals_map_table {cols : List String} {c : String}
    {α : Type} (f : α → List Value) (rs : List α) :
    colVals (Table.mk cols (rs.map f)) c
      = rs.map (fun x => getVal (f x) (List.indexOf c cols)) := by
  unfold colVals colIdx
  rw [List.map_map]
  rfl

theorem engagement_estructura (rs : List (ℚ × ℚ × ℚ)) :
    calcular_engagement_score
        (Table.mk ["recencia_dias", "total_shipments", "monthly_spend"]
          (rs.map (fun x => [Value.num x.1, Value.num x.2.1, Value.num x.2.2])))
      = Table.mk
          ["recencia_dias", "total_shipments", "monthly_spend",
           "engagement_score", "nivel_engagement"]
          (rs.map (fun x =>
            [Value.num x.1, Value.num x.2.1, Value.num x.2.2,
             Value.num (((1 - x.1 / (colMaxQ
                 (Table.mk ["recencia_dias", "total_shipments", "monthly_spend"]
                   (rs.map (fun x => [Value.num x.1, Value.num x.2.1, Value.num x.2.2])))
                 "recencia_dias").getD 0) * 0.4
               + (x.2.1 / (colMaxQ
                 (Table.mk ["recencia_dias", "total_shipments", "monthly_spend"]
                   (rs.map (fun x => [Value.num x.1, Value.num x.2.1, Value.num x.2.2])))
                 "total_shipments").getD 0) * 0.3
               + (x.2.2 / (colMaxQ
                 (Table.mk ["recencia_dias", "total_shipments", "monthly_spend"]
                   (rs.map (fun x => [Value.num x.1, Value.num x.2.1, Value.num x.2.2])))
                 "monthly_spend").getD 0) * 0.3) * 100),
             pdCut (((1 - x.1 / (colMaxQ
                 (Table.mk ["recencia_dias", "total_shipments", "monthly_spend"]
                   (rs.map (fun x => [Value.num x.1, Value.num x.2.1, Value.num x.2.2])))
                 "recencia_dias").getD 0) * 0.4
               + (x.2.1 / (colMaxQ
                 (Table.mk ["recencia_dias", "total_shipments", "monthly_spend"]
                   (rs.map (fun x => [Value.num x.1, Value.num x.2.1, Value.num x.2.2])))
                 "total_shipments").getD 0) * 0.3
               + (x.2.2 / (colMaxQ
                 (Table.mk ["recencia_dias", "total_shipments", "monthly_spend"]
                   (rs.map (fun x => [Value.num x.1, Value.num x.2.1, Value.num x.2.2])))
                 "monthly_spend").getD 0) * 0.3) * 100)
               BINS_ENGAGEMENT ETIQUETAS_ENGAGEMENT])) := by
  set T0 := Table.mk ["recencia_dias", "total_shipments", "monthly_spend"]
    (rs.map (fun x => [Value.num x.1, Value.num x.2.1, Value.num x.2.2])) with hT0
  set RM := (colMaxQ T0 "recencia_dias").getD 0 with hRM
  set FM := (colMaxQ T0 "total_shipments").getD 0 with hFM
  set GM := (colMaxQ T0 "monthly_spend").getD 0 with hGM
  have hv1 : (colVals T0 "recencia_dias").map (normRecencia RM)
      = rs.map (fun x => Value.num (1 - x.1 / RM)) := by
    rw [hT0, colVals_map_table, List.map_map]
    refine List.map_congr_left (fun x _ => ?_)
    simp [getVal, normRecencia]
  have e1 : setColVals T0 "recencia_norm" ((colVals T0 "recencia_dias").map (normRecencia RM))
      = Table.mk ["recencia_dias", "total_shipments", "monthly_spend", "recencia_norm"]
          (rs.map (fun x =>
            [Value.num x.1, Value.num x.2.1, Value.num x.2.2, Value.num (1 - x.1 / RM)])) := by
    rw [hv1, hT0]
    exact setColVals_fresh_map (by decide) _ _ rs
  simp only [calcular_engagement_score]
  rw [← hRM, e1]
  set T1 := Table.mk ["recencia_dias", "total_shipments", "monthly_spend", "recencia_norm"]
    (rs.map (fun x =>
      [Value.num x.1, Value.num x.2.1, Value.num x.2.2, Value.num (1 - x.1 / RM)])) with hT1
  have hm2 : colMaxQ T1 "total_shipments" = colMaxQ T0 "total_shipments" := by
    apply colMaxQ_congr
    rw [hT1, hT0, colVals_map_table, colVals_map_table]
    rfl
  rw [hm2, ← hFM]
  have hv2 : (colVals T1 "total_shipments").map (normMax FM)
      = rs.map (fun x => Value.num (x.2.1 / FM)) := by
    rw [hT1, colVals_map_table, List.map_map]
    rfl
  have e2 : setColVals T1 "frecuencia_norm" ((colVals T1 "total_shipments").map (normMax FM))
      = Table.mk ["recencia_dias", "total_shipments", "monthly_spend",
          "recencia_norm", "frecuencia_norm"]
          (rs.map (fun x =>
            [Value.num x.1, Value.num x.2.1, Value.num x.2.2,
             Value.num (1 - x.1 / RM), Value.num (x.2.1 / FM)])) := by
    rw [hv2, hT1]
    exact setColVals_fresh_map (by decide) _ _ rs
  rw [e2]
  set T2 := Table.mk ["recencia_dias", "total_shipments", "monthly_spend",
      "recencia_norm", "frecuencia_norm"]
    (rs.map (fun x =>
      [Value.num x.1, Value.num x.2.1, Value.num x.2.2,
       Value.num (1 - x.1 / RM), Value.num (x.2.1 / FM)])) with hT2
  have hm3 : colMaxQ T2 "monthly_spend" = colMaxQ T0 "monthly_spend" := by
    apply colMaxQ_congr
    rw [hT2, hT0, colVals_map_table, colVals_map_table]
    rfl
  rw [hm3, ← hGM]
  have hv3 : (colVals T2 "monthly_spend").map (normMax GM)
      = rs.map (fun x => Value.num (x.2.2 / GM)) := by
    rw [hT2, colVals_map_table, List.map_map]
    rfl
  have e3 : setColVals T2 "gasto_norm" ((colVals T2 "monthly_spend").map (normMax GM))
      = Table.mk ["recencia_dias", "total_shipments", "monthly_spend",
          "recencia_norm", "frecuencia_norm", "gasto_norm"]
          (rs.map (fun x =>
            [Value.num x.1, Value.num x.2.1, Value.num x.2.2,
             Value.num (1 - x.1 / RM), Value.num (x.2.1 / FM), Value.num (x.2.2 / GM)])) := by
    rw [hv3, hT2]
    exact setColVals_fresh_map (by decide) _ _ rs
  rw [e3]
  set T3 := Table.mk ["recencia_dias", "total_shipments", "monthly_spend",
      "recencia_norm", "frecuencia_norm", "gasto_norm"]
    (rs.map (fun x =>
      [Value.num x.1, Value.num x.2.1, Value.num x.2.2,
       Value.num (1 - x.1 / RM), Value.num (x.2.1 / FM), Value.num (x.2.2 / GM)])) with hT3
  have hv4 : T3.rows.map (fun r =>
        engScoreV (getVal r (colIdx T3 "recencia_norm"))
          (getVal r (colIdx T3 "frecuencia_norm")) (getVal r (colIdx T3 "gasto_norm")))
      = rs.map (fun x => Value.num
          (((1 - x.1 / RM) * 0.4 + (x.2.1 / FM) * 0.3 + (x.2.2 / GM) * 0.3) * 100)) := by
    rw [hT3]
    show List.map _ (List.map _ rs) = _
    rw [List.map_map]
    rfl
  have e4 : setColVals T3 "engagement_score" (T3.rows.map (fun r =>
        engScoreV (getVal r (colIdx T3 "recencia_norm"))
          (getVal r (colIdx T3 "frecuencia_norm")) (getVal r (colIdx T3 "gasto_norm"))))
      = Table.mk ["recencia_dias", "total_shipments", "monthly_spend",
          "recencia_norm", "frecuencia_norm", "gasto_norm", "engagement_score"]
          (rs.map (fun x =>
            [Value.num x.1, Value.num x.2.1, Value.num x.2.2,
             Value.num (1 - x.1 / RM), Value.num (x.2.1 / FM), Value.num (x.2.2 / GM),
             Value.num (((1 - x.1 / RM) * 0.4 + (x.2.1 / FM) * 0.3 + (x.2.2 / GM) * 0.3) * 100)])) := by
    rw [hv4, hT3]
    exact setColVals_fresh_map (by decide) _ _ rs
  rw [e4]
  set T4 := Table.mk ["recencia_dias", "total_shipments", "monthly_spend",
      "recencia_norm", "frecuencia_norm", "gasto_norm", "engagement_score"]
    (rs.map (fun x =>
      [Value.num x.1, Value.num x.2.1, Value.num x.2.2,
       Value.num (1 - x.1 / RM), Value.num (x.2.1 / FM), Value.num (x.2.2 / GM),
       Value.num (((1 - x.1 / RM) * 0.4 + (x.2.1 / FM) * 0.3 + (x.2.2 / GM) * 0.3) * 100)])) with hT4
  have hv5 : (colVals T4 "engagement_score").map
        (cortarV BINS_ENGAGEMENT ETIQUETAS_ENGAGEMENT)
      = rs.map (fun x =>
          pdCut (((1 - x.1 / RM) * 0.4 + (x.2.1 / FM) * 0.3 + (x.2.2 / GM) * 0.3) * 100)
            BINS_ENGAGEMENT ETIQUETAS_ENGAGEMENT) := by
    rw [hT4, colVals_map_table, List.map_map]
    rfl
  have e5 : setColVals T4 "nivel_engagement" ((colVals T4 "engagement_score").map
        (cortarV BINS_ENGAGEMENT ETIQUETAS_ENGAGEMENT))
      = Table.mk ["recencia_dias", "total_shipments", "monthly_spend",
          "recencia_norm", "frecuencia_norm", "gasto_norm", "engagement_score",
          "nivel_engagement"]
          (rs.map (fun x =>
            [Value.num x.1, Value.num x.2.1, Value.num x.2.2,
             Value.num (1 - x.1 / RM), Value.num (x.2.1 / FM), Value.num (x.2.2 / GM),
             Value.num (((1 - x.1 / RM) * 0.4 + (x.2.1 / FM) * 0.3 + (x.2.2 / GM) * 0.3) * 100),
             pdCut (((1 - x.1 / RM) * 0.4 + (x.2.1 / FM) * 0.3 + (x.2.2 / GM) * 0.3) * 100)
               BINS_ENGAGEMENT ETIQUETAS_ENGAGEMENT])) := by
    rw [hv5, hT4]
    exact setColVals_fresh_map (by decide) _ _ rs
  rw [e5]
  simp only [quitarColumnas, List.foldl_cons, List.foldl_nil]
  rw [quitarColumna_map (by decide) _ rs]
  rw [show List.indexOf "recencia_norm"
      ["recencia_dias", "total_shipments", "monthly_spend", "recencia_norm",
       "frecuencia_norm", "gasto_norm", "engagement_score", "nivel_engagement"] = 3 from rfl]
  simp only [List.eraseIdx]
  rw [quitarColumna_map (by decide) _ rs]
  rw [show List.indexOf "frecuencia_norm"
      ["recencia_dias", "total_shipments", "monthly_spend",
       "frecuencia_norm", "gasto_norm", "engagement_score", "nivel_engagement"] = 3 from rfl]
  simp only [List.eraseIdx]
  rw [quitarColumna_map (by decide) _ rs]
  rw [show List.indexOf "gasto_norm"
      ["recencia_dias", "total_shipments", "monthly_spend",
       "gasto_norm", "engagement_score", "nivel_engagement"] = 3 from rfl]
  simp only [List.eraseIdx]

theorem engagement_formula (rs : List (ℚ × ℚ × ℚ)) :
    colVals (calcular_engagement_score
        (Table.mk ["recencia_dias", "total_shipments", "monthly_spend"]
          (rs.map (fun x => [Value.num x.1, Value.num x.2.1, Value.num x.2.2]))))
        "engagement_score"
      = rs.map (fun x => Value.num
          (((1 - x.1 / (colMaxQ
              (Table.mk ["recencia_dias", "total_shipments", "monthly_spend"]
                (rs.map (fun x => [Value.num x.1, Value.num x.2.1, Value.num x.2.2])))
              "recencia_dias").getD 0) * 0.4
            + (x.2.1 / (colMaxQ
              (Table.mk ["recencia_dias", "total_shipments", "monthly_spend"]
                (rs.map (fun x => [Value.num x.1, Value.num x.2.1, Value.num x.2.2])))
              "total_shipments").getD 0) * 0.3
            + (x.2.2 / (colMaxQ
              (Table.mk ["recencia_dias", "total_shipments", "monthly_spend"]
                (rs.map (fun x => [Value.num x.1, Value.num x.2.1, Value.num x.2.2])))
              "monthly_spend").getD 0) * 0.3) * 100)) := by
  rw [engagement_estructura, colVals_map_table]
  rfl

/-- Claim C7: on a batch whose three source columns are numeric,
calcular_engagement_score writes, for every row, engagement_score =
100 x (0.4 x (1 - recency/max_recency) + 0.3 x shipments/max_shipments
+ 0.3 x spend/max_spend) with each maximum taken over the batch; when
all inputs are nonnegative and each column has a positive entry the
score lies in [0,100]; and the record (recency 0, shipments 0, spend 0)
among peers with maxima (100, 5, 50) scores exactly 40. -/
theorem calcular_engagement_score_formula_y_rango :
    (∀ rs : List (ℚ × ℚ × ℚ),
      colVals (calcular_engagement_score
          (Table.mk ["recencia_dias", "total_shipments", "monthly_spend"]
            (rs.map (fun x => [Value.num x.1, Value.num x.2.1, Value.num x.2.2]))))
          "engagement_score"
        = rs.map (fun x => Value.num
            (((1 - x.1 / (colMaxQ
                (Table.mk ["recencia_dias", "total_shipments", "monthly_spend"]
                  (rs.map (fun x => [Value.num x.1, Value.num x.2.1, Value.num x.2.2])))
                "recencia_dias").getD 0) * 0.4
              + (x.2.1 / (colMaxQ
                (Table.mk ["recencia_dias", "total_shipments", "monthly_spend"]
                  (rs.map (fun x => [Value.num x.1, Value.num x.2.1, Value.num x.2.2])))
                "total_shipments").getD 0) * 0.3
              + (x.2.2 / (colMaxQ
                (Table.mk ["recencia_dias", "total_shipments", "monthly_spend"]
                  (rs.map (fun x => [Value.num x.1, Value.num x.2.1, Value.num x.2.2])))
                "monthly_spend").getD 0) * 0.3) * 100)))
    ∧ (∀ rs : List (ℚ × ℚ × ℚ),
        (∀ x ∈ rs, 0 ≤ x.1 ∧ 0 ≤ x.2.1 ∧ 0 ≤ x.2.2) →
        (∃ x ∈ rs, 0 < x.1) → (∃ x ∈ rs, 0 < x.2.1) → (∃ x ∈ rs, 0 < x.2.2) →
        ∀ q : ℚ, Value.num q ∈ colVals (calcular_engagement_score
            (Table.mk ["recencia_dias", "total_shipments", "monthly_spend"]
              (rs.map (fun x => [Value.num x.1, Value.num x.2.1, Value.num x.2.2]))))
            "engagement_score" →
        0 ≤ q ∧ q ≤ 100)
    ∧ colVals (calcular_engagement_score
          (Table.mk ["recencia_dias", "total_shipments", "monthly_spend"]
            ([((0 : ℚ), (0 : ℚ), (0 : ℚ)), (100, 5, 50)].map
              (fun x => [Value.num x.1, Value.num x.2.1, Value.num x.2.2]))))
          "engagement_score"
        = [Value.num 40, Value.num 60] := by
  refine ⟨engagement_formula, ?_, ?_⟩
  · intro rs h0 hpos1 hpos2 hpos3 q hq
    rw [engagement_formula] at hq
    obtain ⟨x, hx, heq⟩ := List.mem_map.mp hq
    obtain ⟨x1, hx1, hx1pos⟩ := hpos1
    obtain ⟨x2, hx2, hx2pos⟩ := hpos2
    obtain ⟨x3, hx3, hx3pos⟩ := hpos3
    have hmem1 : Value.num x1.1 ∈ colVals
        (Table.mk ["recencia_dias", "total_shipments", "monthly_spend"]
          (rs.map (fun x => [Value.num x.1, Value.num x.2.1, Value.num x.2.2])))
        "recencia_dias" := by
      rw [colVals_map_table]
      exact List.mem_map.mpr ⟨x1, hx1, rfl⟩
    have hmem2 : Value.num x2.2.1 ∈ colVals
        (Table.mk ["recencia_dias", "total_shipments", "monthly_spend"]
          (rs.map (fun x => [Value.num x.1, Value.num x.2.1, Value.num x.2.2])))
        "total_shipments" := by
      rw [colVals_map_table]
      exact List.mem_map.mpr ⟨x2, hx2, rfl⟩
    have hmem3 : Value.num x3.2.2 ∈ colVals
        (Table.mk ["recencia_dias", "total_shipments", "monthly_spend"]
          (rs.map (fun x => [Value.num x.1, Value.num x.2.1, Value.num x.2.2])))
        "monthly_spend" := by
      rw [colVals_map_table]
      exact List.mem_map.mpr ⟨x3, hx3, rfl⟩
    obtain ⟨m1, hm1, hle1⟩ := colMaxQ_spec hmem1
    obtain ⟨m2, hm2, hle2⟩ := colMaxQ_spec hmem2
    obtain ⟨m3, hm3, hle3⟩ := colMaxQ_spec hmem3
    have hmemx1 : Value.num x.1 ∈ colVals
        (Table.mk ["recencia_dias", "total_shipments", "monthly_spend"]
          (rs.map (fun x => [Value.num x.1, Value.num x.2.1, Value.num x.2.2])))
        "recencia_dias" := by
      rw [colVals_map_table]
      exact List.mem_map.mpr ⟨x, hx, rfl⟩
    have hmemx2 : Value.num x.2.1 ∈ colVals
        (Table.mk ["recencia_dias", "total_shipments", "monthly_spend"]
          (rs.map (fun x => [Value.num x.1, Value.num x.2.1, Value.num x.2.2])))
        "total_shipments" := by
      rw [colVals_map_table]
      exact List.mem_map.mpr ⟨x, hx, rfl⟩
    have hmemx3 : Value.num x.2.2 ∈ colVals
        (Table.mk ["recencia_dias", "total_shipments", "monthly_spend"]
          (rs.map (fun x => [Value.num x.1, Value.num x.2.1, Value.num x.2.2])))
        "monthly_spend" := by
      rw [colVals_map_table]
      exact List.mem_map.mpr ⟨x, hx, rfl⟩
    obtain ⟨m1', hm1', hlex1⟩ := colMaxQ_spec hmemx1
    obtain ⟨m2', hm2', hlex2⟩ := colMaxQ_spec hmemx2
    obtain ⟨m3', hm3', hlex3⟩ := colMaxQ_spec hmemx3
    rw [hm1] at hm1'
    rw [hm2] at hm2'
    rw [hm3] at hm3'
    cases hm1'
    cases hm2'
    cases hm3'
    rw [hm1, hm2, hm3] at heq
    simp only [Option.getD_some, Value.num.injEq] at heq
    subst heq
    have h1p : (0 : ℚ) < m1 := lt_of_lt_of_le hx1pos hle1
    have h2p : (0 : ℚ) < m2 := lt_of_lt_of_le hx2pos hle2
    have h3p : (0 : ℚ) < m3 := lt_of_lt_of_le hx3pos hle3
    obtain ⟨hx0a, hx0b, hx0c⟩ := h0 x hx
    have ha1 : 0 ≤ x.1 / m1 := div_nonneg hx0a h1p.le
    have ha2 : x.1 / m1 ≤ 1 := (div_le_one h1p).mpr hlex1
    have hb1 : 0 ≤ x.2.1 / m2 := div_nonneg hx0b h2p.le
    have hb2 : x.2.1 / m2 ≤ 1 := (div_le_one h2p).mpr hlex2
    have hc1 : 0 ≤ x.2.2 / m3 := div_nonneg hx0c h3p.le
    have hc2 : x.2.2 / m3 ≤ 1 := (div_le_one h3p).mpr hlex3
    constructor <;> nlinarith [ha1, ha2, hb1, hb2, hc1, hc2]
  · have hidx2 : List.indexOf "total_shipments"
        ["recencia_dias", "total_shipments", "monthly_spend"] = 1 := rfl
    have hidx3 : List.indexOf "monthly_spend"
        ["recencia_dias", "total_shipments", "monthly_spend"] = 2 := rfl
    have hm1 : colMaxQ
        (Table.mk ["recencia_dias", "total_shipments", "monthly_spend"]
          ([((0 : ℚ), (0 : ℚ), (0 : ℚ)), (100, 5, 50)].map
            (fun x => [Value.num x.1, Value.num x.2.1, Value.num x.2.2])))
        "recencia_dias" = some 100 := by
      norm_num [colMaxQ, colVals, colIdx, getVal, List.foldl]
    have hm2 : colMaxQ
        (Table.mk ["recencia_dias", "total_shipments", "monthly_spend"]
          ([((0 : ℚ), (0 : ℚ), (0 : ℚ)), (100, 5, 50)].map
            (fun x => [Value.num x.1, Value.num x.2.1, Value.num x.2.2])))
        "total_shipments" = some 5 := by
      norm_num [colMaxQ, colVals, colIdx, getVal, hidx2, List.foldl]
    have hm3 : colMaxQ
        (Table.mk ["recencia_dias", "total_shipments", "monthly_spend"]
          ([((0 : ℚ), (0 : ℚ), (0 : ℚ)), (100, 5, 50)].map
            (fun x => [Value.num x.1, Value.num x.2.1, Value.num x.2.2])))
        "monthly_spend" = some 50 := by
      norm_num [colMaxQ, colVals, colIdx, getVal, hidx3, List.foldl]
    rw [engagement_formula, hm1, hm2, hm3]
    norm_num

theorem calcular_engagement_score_rango_witness :
    0 ≤ (40 : ℚ) ∧ (40 : ℚ) ≤ 100 := by
  have h40 : Value.num 40 ∈ colVals (calcular_engagement_score
      (Table.mk ["recencia_dias", "total_shipments", "monthly_spend"]
        ([((0 : ℚ), (0 : ℚ), (0 : ℚ)), (100, 5, 50)].map
          (fun x => [Value.num x.1, Value.num x.2.1, Value.num x.2.2]))))
      "engagement_score" := by
    rw [calcular_engagement_score_formula_y_rango.2.2]
    simp
  exact calcular_engagement_score_formula_y_rango.2.1
    [((0 : ℚ), (0 : ℚ), (0 : ℚ)), (100, 5, 50)]
    (by norm_num) ⟨(100, 5, 50), by norm_num⟩ ⟨(100, 5, 50), by norm_num⟩
    ⟨(100, 5, 50), by norm_num⟩ 40 h40


-- ===========================================================================
-- Claim C5: idempotence of the cleaned-layer sequence on its fixed points
-- ===========================================================================

/-- Claim C5 (amended): the cleaned-layer sequence (deduplication, date
normalization, type coercion, outlier correction, null handling) is the
identity on any aligned table that already has pairwise-distinct
customer_id keys, canonical (already-parsed) date columns, already
numeric coerced columns, values inside the outlier thresholds, no
missing cells -- and, the condition the claim as stated omits, no cell
holding one of the missing-value sentinel strings 'NULL', '' or 'N/A',
without which the coercion stage re-introduces missing values and the
null stage refills them. -/
theorem limpieza_silver_idempotente (t : Table)
    (halin : Aligned t)
    (hkeys : (t.rows.map (fun r => getVal r (List.indexOf "customer_id" t.cols))).Nodup)
    (hdates : ∀ c ∈ ["signup_date", "last_purchase_date"], ∀ r ∈ t.rows,
      parseDateV (getVal r (colIdx t c)) = getVal r (colIdx t c))
    (hnums : ∀ c ∈ ["monthly_spend", "total_shipments", "churn_label"], ∀ r ∈ t.rows,
      parseNumV (getVal r (colIdx t c)) = getVal r (colIdx t c))
    (hspend : ∀ r ∈ t.rows,
      capNeg (getVal r (colIdx t "monthly_spend")) = getVal r (colIdx t "monthly_spend")
      ∧ capMax UMBRAL_GASTO_MAXIMO (getVal r (colIdx t "monthly_spend"))
        = getVal r (colIdx t "monthly_spend"))
    (hship : ∀ r ∈ t.rows,
      capMax UMBRAL_ENVIOS_MAXIMO (getVal r (colIdx t "total_shipments"))
        = getVal r (colIdx t "total_shipments"))
    (hnona : ∀ r ∈ t.rows, Value.na ∉ r)
    (hsent : ∀ r ∈ t.rows, ∀ v ∈ r,
      v ≠ Value.str "NULL" ∧ v ≠ Value.str "" ∧ v ≠ Value.str "N/A") :
    limpieza_silver t = t := by
  have heta : Table.mk t.cols t.rows = t := rfl
  -- Stage 1: deduplication is the identity
  have hded : dedupRows t.rows = t.rows :=
    dedupRows_eq_self (List.Nodup.of_map _ hkeys)
  have hS1 : detectar_duplicados t "customer_id" = t := by
    rw [detectar_nodup_eq (by rw [hded]; exact hkeys), hded]
  -- Stage 2: date normalization is the identity
  have hnorm_one : ∀ c ∈ ["signup_date", "last_purchase_date"],
      (if c ∈ t.cols then mapCol t c parseDateV else t) = t := by
    intro c hc
    by_cases hm : c ∈ t.cols
    · rw [if_pos hm]
      exact mapCol_id hm (fun r hr => hdates c hc r hr)
    · rw [if_neg hm]
  have hS2 : normalizar_fechas t ["signup_date", "last_purchase_date"] = t := by
    simp only [normalizar_fechas, List.foldl_cons, List.foldl_nil]
    rw [hnorm_one "signup_date" (by simp), hnorm_one "last_purchase_date" (by simp)]
  -- Stage 3: type coercion is the identity
  have hrepl : reemplazarCentinelas t = t := by
    unfold reemplazarCentinelas
    have hrow : ∀ r ∈ t.rows, List.map (fun v =>
        if v = Value.str "NULL" ∨ v = Value.str "" ∨ v = Value.str "N/A"
        then Value.na else v) r = r := by
      intro r hr
      refine (List.map_congr_left (fun v hv => ?_)).trans (List.map_id r)
      obtain ⟨h1, h2, h3⟩ := hsent r hr v hv
      simp [h1, h2, h3]
    have hmaps : t.rows.map (List.map (fun v =>
        if v = Value.str "NULL" ∨ v = Value.str "" ∨ v = Value.str "N/A"
        then Value.na else v)) = t.rows.map id :=
      List.map_congr_left (fun r hr => hrow r hr)
    rw [hmaps, List.map_id]
  have hnum_one : ∀ c ∈ ["monthly_spend", "total_shipments", "churn_label"],
      (if c ∈ t.cols then mapCol t c parseNumV else t) = t := by
    intro c hc
    by_cases hm : c ∈ t.cols
    · rw [if_pos hm]
      exact mapCol_id hm (fun r hr => hnums c hc r hr)
    · rw [if_neg hm]
  have hS3 : convertir_tipos t = t := by
    unfold convertir_tipos
    rw [hrepl]
    simp only [List.foldl_cons, List.foldl_nil]
    rw [hnum_one "monthly_spend" (by simp), hnum_one "total_shipments" (by simp),
      hnum_one "churn_label" (by simp)]
  -- Stage 4: outlier correction is the identity
  have hS4a : corregir_outliers t "monthly_spend" "cap" = t := by
    by_cases hm : "monthly_spend" ∈ t.cols
    · rw [corregir_outliers_spend_eq hm]
      have h1 : mapCol t "monthly_spend" capNeg = t :=
        mapCol_id hm (fun r hr => (hspend r hr).1)
      rw [h1]
      exact mapCol_id hm (fun r hr => (hspend r hr).2)
    · exact corregir_outliers_absent hm _
  have hS4b : corregir_outliers t "total_shipments" "cap" = t := by
    by_cases hm : "total_shipments" ∈ t.cols
    · rw [corregir_outliers_ship_eq hm]
      exact mapCol_id hm (fun r hr => hship r hr)
    · exact corregir_outliers_absent hm _
  -- Stage 5: null handling is the identity
  have hcount : ∀ c ∈ t.cols, countNa (colVals t c) = 0 := by
    intro c hc
    rw [countNa, List.count_eq_zero]
    intro hmem
    obtain ⟨r, hr, hna⟩ := List.mem_map.mp hmem
    have hlt : colIdx t c < r.length := by
      rw [halin r hr]
      exact List.indexOf_lt_length.mpr hc
    have hmm : getVal r (colIdx t c) ∈ r := by
      rw [getVal, List.getD_eq_get r Value.na hlt]
      exact List.get_mem r (colIdx t c) hlt
    rw [hna] at hmm
    exact hnona r hr hmm
  have happ : ∀ e : String × String, aplicar_estrategia t e = t := by
    intro e
    unfold aplicar_estrategia
    by_cases hm : e.1 ∈ t.cols
    · rw [if_pos hm, if_pos (hcount e.1 hm)]
    · rw [if_neg hm]
  have hS5 : manejar_valores_nulos t ESTRATEGIA_NULOS = t := by
    unfold manejar_valores_nulos
    exact foldl_fixed _ _ _ (fun e _ => happ e)
  unfold limpieza_silver
  rw [hS1, hS2, hS3, hS4a, hS4b, hS5]


/-- Claim C5, counterexample to the claim as stated: the one-row table
(customer_id 'C1', phone literally the text 'NULL') meets every stated
hypothesis -- unique keys, canonical dates (vacuous), no out-of-threshold
values (vacuous), no missing values -- yet the cleaning sequence maps the
phone cell 'NULL' to missing and then fills it with 'MISSING', so the
output differs from the input. -/
theorem limpieza_silver_contraejemplo :
    Aligned (Table.mk ["customer_id", "phone"] [[Value.str "C1", Value.str "NULL"]])
    ∧ (((Table.mk ["customer_id", "phone"]
        [[Value.str "C1", Value.str "NULL"]]).rows.map
        (fun r => getVal r (List.indexOf "customer_id"
          (Table.mk ["customer_id", "phone"]
            [[Value.str "C1", Value.str "NULL"]]).cols))).Nodup)
    ∧ (∀ c ∈ ["signup_date", "last_purchase_date"],
        ∀ r ∈ (Table.mk ["customer_id", "phone"]
          [[Value.str "C1", Value.str "NULL"]]).rows,
        parseDateV (getVal r (colIdx (Table.mk ["customer_id", "phone"]
          [[Value.str "C1", Value.str "NULL"]]) c))
          = getVal r (colIdx (Table.mk ["customer_id", "phone"]
            [[Value.str "C1", Value.str "NULL"]]) c))
    ∧ (∀ r ∈ (Table.mk ["customer_id", "phone"]
          [[Value.str "C1", Value.str "NULL"]]).rows,
        capNeg (getVal r (colIdx (Table.mk ["customer_id", "phone"]
          [[Value.str "C1", Value.str "NULL"]]) "monthly_spend"))
          = getVal r (colIdx (Table.mk ["customer_id", "phone"]
            [[Value.str "C1", Value.str "NULL"]]) "monthly_spend"))
    ∧ (∀ r ∈ (Table.mk ["customer_id", "phone"]
          [[Value.str "C1", Value.str "NULL"]]).rows, Value.na ∉ r)
    ∧ limpieza_silver (Table.mk ["customer_id", "phone"]
        [[Value.str "C1", Value.str "NULL"]])
      ≠ Table.mk ["customer_id", "phone"] [[Value.str "C1", Value.str "NULL"]] := by
  refine ⟨by decide, by decide, by decide, by decide, by decide, by decide⟩

theorem limpieza_silver_idempotente_witness :
    limpieza_silver
        (Table.mk ["customer_id", "signup_date", "last_purchase_date",
            "monthly_spend", "total_shipments", "churn_label", "phone"]
          [[Value.str "C1", Value.date 100, Value.date 500, Value.num 450,
            Value.num 12, Value.num 0, Value.str "555-1"],
           [Value.str "C2", Value.date 200, Value.date 600, Value.num 1200,
            Value.num 45, Value.num 1, Value.str "MISSING"]])
      = Table.mk ["customer_id", "signup_date", "last_purchase_date",
            "monthly_spend", "total_shipments", "churn_label", "phone"]
          [[Value.str "C1", Value.date 100, Value.date 500, Value.num 450,
            Value.num 12, Value.num 0, Value.str "555-1"],
           [Value.str "C2", Value.date 200, Value.date 600, Value.num 1200,
            Value.num 45, Value.num 1, Value.str "MISSING"]] :=
  limpieza_silver_idempotente _ (by decide) (by decide) (by decide) (by decide)
    (by decide) (by decide) (by decide) (by decide)
